import Mathlib

/-!
Verification of the storage/index abstraction layer of the 1000words
story-publishing platform.

The development shallowly embeds the TypeScript source:

* `src/lib/index-backends/sqlite.ts`   — `SQLiteIndexBackend`
* `src/lib/index-backends/dynamodb.ts` — `DynamoDBIndexBackend`
* `src/lib/index-backends/postgres.ts` — `PostgresIndexBackend`
* `src/lib/storage/local.ts`           — `LocalStorageBackend`
* `src/lib/storage/s3.ts`              — `S3StorageBackend`

Modelling conventions:

* JavaScript `Date` values are represented by their ISO-8601 string
  (`Date.prototype.toISOString`); both SQLite `TEXT` comparison and
  `String.prototype.localeCompare` order such strings chronologically,
  and all timestamp strings produced by the code are of this normal form.
* Database tables are lists of rows in insertion (rowid / scan) order.
  SQLite scans rows in rowid order; DynamoDB's scan order is unspecified,
  and is modelled as insertion order.
* `ORDER BY` and JavaScript's `Array.prototype.sort` (stable since
  ES2019) are modelled by a stable insertion sort on a strict Bool
  comparator.
* Case folding (`String.prototype.toLowerCase`, SQLite's default
  `LIKE` case folding) is modelled on the ASCII range, which is exact
  for SQLite's `LIKE` and agrees with JavaScript on ASCII strings.
* Asynchronous methods are modelled as pure state-passing functions;
  each call is atomic, matching the single-connection backends.
-/

namespace ThousandWords

/-- ASCII lower-casing of a character, as SQLite's `LIKE` folds case and as
`String.prototype.toLowerCase` acts on ASCII. -/
def lowerAscii (c : Char) : Char :=
  if 'A' ≤ c ∧ c ≤ 'Z' then Char.ofNat (c.toNat + 32) else c

/-- `String.prototype.toLowerCase`, restricted to the ASCII range. -/
def jsToLower (s : String) : String :=
  String.mk (s.data.map lowerAscii)

/-- Strict lexicographic order on character lists (byte-wise for ASCII),
as SQLite's BINARY collation and `localeCompare` on ISO timestamps. -/
def listLtB : List Char → List Char → Bool
  | [], [] => false
  | [], _ :: _ => true
  | _ :: _, [] => false
  | a :: as, b :: bs => if a < b then true else if b < a then false else listLtB as bs

/-- Strict lexicographic order on strings. -/
def strLtB (a b : String) : Bool :=
  listLtB a.data b.data

/-- Insert into a sorted list, keeping `x` before every element it ties
with that was inserted after it (stability). -/
def insertBy (lt : α → α → Bool) (x : α) : List α → List α
  | [] => [x]
  | y :: ys => if lt y x then y :: insertBy lt x ys else x :: y :: ys

/-- Stable sort by a strict comparator: elements are ordered by `lt`, and
elements neither of which is `lt` the other keep their original relative
order.  Models SQL `ORDER BY` and JavaScript's stable `Array.sort`. -/
def stableSortBy (lt : α → α → Bool) : List α → List α
  | [] => []
  | x :: xs => insertBy lt x (stableSortBy lt xs)

/-- SQL `LIKE` pattern matching: `%` matches any sequence, `_` matches one
character, other characters match one character up to the fold `f`
(`lowerAscii` for SQLite's case-insensitive default, `id` for Postgres). -/
def likeMatchWith (f : Char → Char) : List Char → List Char → Bool
  | [], t => t.isEmpty
  | p :: ps, t =>
    if p = '%' then (t.tails).any (fun s => likeMatchWith f ps s)
    else if p = '_' then
      match t with
      | [] => false
      | _ :: ts => likeMatchWith f ps ts
    else
      match t with
      | [] => false
      | c :: ts => (f p == f c) && likeMatchWith f ps ts

/-- `String.prototype.includes` on character lists: `needle` occurs as a
contiguous substring of `hay`. -/
def listContains (needle hay : List Char) : Bool :=
  (hay.tails).any (fun s => needle.isPrefixOf s)

/-- JavaScript truthiness of an optional string: `undefined` and `""` are
falsy. -/
def truthyStr : Option String → Option String
  | none => none
  | some s => if s = "" then none else some s

/-- Split a character list at a separator character, as
`String.prototype.split` / `String.splitOn` for a one-character
separator (structural, so the kernel can evaluate it). -/
def splitOnChar (sep : Char) : List Char → List (List Char)
  | [] => [[]]
  | c :: rest =>
    match splitOnChar sep rest with
    | [] => [[]]
    | g :: gs => if c = sep then [] :: g :: gs else (c :: g) :: gs

/-- `String.prototype.startsWith`. -/
def strStartsWith (s pre : String) : Bool :=
  pre.data.isPrefixOf s.data

/-- `String.prototype.endsWith`. -/
def strEndsWith (s suf : String) : Bool :=
  List.isSuffixOf suf.data s.data

/-- `Array.prototype.join` / `String.intercalate` (structural). -/
def intercalateStr (sep : String) : List String → String
  | [] => ""
  | [x] => x
  | x :: xs => x ++ sep ++ intercalateStr sep xs

/-- JSON escaping of one character, as `JSON.stringify` emits it.
Control characters are not escaped here; the backends only ever
serialize printable tag strings. -/
def jsonEscapeChar (c : Char) : List Char :=
  if c = '"' then ['\\', '"']
  else if c = '\\' then ['\\', '\\']
  else [c]

/-- The JSON string literal for `s`, quotes included. -/
def jsonQuote (s : String) : String :=
  String.mk ('"' :: s.data.flatMap jsonEscapeChar ++ ['"'])

/-- `JSON.stringify` of an array of strings, e.g. `["a","b"]`. -/
def jsonStringify (l : List String) : String :=
  "[" ++ intercalateStr "," (l.map jsonQuote) ++ "]"

/-- Parse one JSON string literal body after the opening quote; returns the
decoded characters and the rest of the input.  Fuel-structural so the
kernel can evaluate it. -/
def parseStrBody (fuel : Nat) (acc : List Char) (input : List Char) :
    Option (String × List Char) :=
  match fuel with
  | 0 => none
  | fuel + 1 =>
    match input with
    | [] => none
    | '"' :: rest => some (String.mk acc.reverse, rest)
    | '\\' :: rest =>
      match rest with
      | [] => none
      | e :: rest' =>
        if e = '"' then parseStrBody fuel ('"' :: acc) rest'
        else if e = '\\' then parseStrBody fuel ('\\' :: acc) rest'
        else none
    | c :: rest => parseStrBody fuel (c :: acc) rest

/-- Parse the elements of a JSON string array after `[`, accumulating in
reverse. -/
def parseArrayElems (fuel : Nat) (acc : List String) (input : List Char) :
    Option (List String) :=
  match fuel with
  | 0 => none
  | fuel + 1 =>
    match input with
    | '"' :: rest =>
      match parseStrBody fuel [] rest with
      | none => none
      | some (s, rest') =>
        match rest' with
        | ']' :: tail => if tail.isEmpty then some ((s :: acc).reverse) else none
        | ',' :: tail => parseArrayElems fuel (s :: acc) tail
        | _ => none
    | _ => none

/-- `JSON.parse` restricted to arrays of strings, which is the only shape
the index backends store in the `tags` column. -/
def parseJsonStringArray (s : String) : Option (List String) :=
  match s.data with
  | '[' :: ']' :: rest => if rest.isEmpty then some [] else none
  | '[' :: rest => parseArrayElems (s.length + 1) [] rest
  | _ => none

/-! ## Data model (`src/lib/types/index-backend.ts`) -/

/-- Sort field of `QueryOptions.sortBy`. -/
inductive SortField
  | publishedAt
  | updatedAt
  | createdAt
  | title
deriving DecidableEq, Repr

/-- Sort direction of `QueryOptions.sortOrder`. -/
inductive SortDir
  | asc
  | desc
deriving DecidableEq, Repr

/-- `StoryMetadata`, the record type returned by every index backend.
`Date` fields are carried as their ISO-8601 strings. -/
structure StoryMetadata where
  id : String
  title : String
  authorDid : String
  authorName : String
  storageKey : String
  wordCount : Nat
  excerpt : Option String
  tags : Option (List String)
  publishedAt : String
  updatedAt : String
  createdAt : String
deriving DecidableEq, Repr

/-- `CreateStoryInput`. -/
structure CreateStoryInput where
  title : String
  authorDid : String
  authorName : String
  storageKey : String
  wordCount : Nat
  excerpt : Option String
  tags : Option (List String)
deriving DecidableEq, Repr

/-- `UpdateStoryInput`: each field is `some` exactly when present
(`!== undefined`) on the JavaScript object. -/
structure UpdateStoryInput where
  title : Option String
  excerpt : Option String
  tags : Option (List String)
  wordCount : Option Nat
deriving DecidableEq, Repr

/-- The all-absent `UpdateStoryInput`, i.e. `update(id, {})`. -/
def emptyUpdate : UpdateStoryInput :=
  { title := none, excerpt := none, tags := none, wordCount := none }

/-- `QueryOptions`. -/
structure QueryOptions where
  authorDid : Option String
  tags : Option (List String)
  sortBy : Option SortField
  sortOrder : Option SortDir
  limit : Option Nat
  offset : Option Nat
deriving DecidableEq, Repr

/-- `QueryOptions` with every field omitted. -/
def noOptions : QueryOptions :=
  { authorDid := none, tags := none, sortBy := none, sortOrder := none,
    limit := none, offset := none }

/-- `SearchOptions`. -/
structure SearchOptions where
  query : String
  authorDid : Option String
  limit : Option Nat
  offset : Option Nat
deriving DecidableEq, Repr

/-- `QueryResult`. -/
structure QueryResult where
  stories : List StoryMetadata
  total : Nat
  hasMore : Bool
deriving DecidableEq, Repr

/-! ## SQLite backend (`src/lib/index-backends/sqlite.ts`)

The `stories` table is a list of rows in rowid (insertion) order.  The
schema (`initSchema`) declares `id TEXT PRIMARY KEY` and
`storage_key TEXT NOT NULL UNIQUE`; an `INSERT` violating either
constraint throws a `SqliteError`, modelled by `SqliteOutcome.conflict`.
-/

/-- A row of the SQLite `stories` table.  `tags` holds the JSON text
produced by `JSON.stringify`, or `NULL`. -/
structure StoryRow where
  id : String
  title : String
  author_did : String
  author_name : String
  storage_key : String
  word_count : Nat
  excerpt : Option String
  tags : Option String
  published_at : String
  updated_at : String
  created_at : String
deriving DecidableEq, Repr

/-- Outcome of `SQLiteIndexBackend.create`: the metadata on success, a
`SqliteError` for a UNIQUE-constraint violation, or the
`"Failed to create story"` error. -/
inductive SqliteOutcome
  | ok (created : StoryMetadata)
  | conflict
  | createFailed
deriving DecidableEq, Repr

namespace SQLiteIndexBackend

/-- `rowToMetadata`: converts a row back to `StoryMetadata`.
`row.tags ? JSON.parse(row.tags) : undefined` — the empty string is
falsy, and `JSON.parse` of text that is not a JSON string array (which
this backend never writes) is collapsed to `none`. -/
def rowToMetadata (row : StoryRow) : StoryMetadata :=
  { id := row.id
    title := row.title
    authorDid := row.author_did
    authorName := row.author_name
    storageKey := row.storage_key
    wordCount := row.word_count
    excerpt := row.excerpt
    tags := row.tags.bind (fun t => if t = "" then none else parseJsonStringArray t)
    publishedAt := row.published_at
    updatedAt := row.updated_at
    createdAt := row.created_at }

/-- `get`: `SELECT * FROM stories WHERE id = ?` (first match). -/
def get (rows : List StoryRow) (id : String) : Option StoryMetadata :=
  (rows.find? (fun r => r.id == id)).map rowToMetadata

/-- The row inserted by `create`; `id` is the generated UUID and `now`
is `new Date().toISOString()`. -/
def createRow (input : CreateStoryInput) (id now : String) : StoryRow :=
  { id := id
    title := input.title
    author_did := input.authorDid
    author_name := input.authorName
    storage_key := input.storageKey
    word_count := input.wordCount
    excerpt := input.excerpt
    tags := input.tags.map jsonStringify
    published_at := now
    updated_at := now
    created_at := now }

/-- `create`: the `INSERT` throws on a PRIMARY KEY (`id`) or UNIQUE
(`storage_key`) violation and leaves the table unchanged; otherwise the
row is appended and re-read through `get`. -/
def create (rows : List StoryRow) (input : CreateStoryInput) (id now : String) :
    SqliteOutcome × List StoryRow :=
  if rows.any (fun r => r.id == id || r.storage_key == input.storageKey) then
    (.conflict, rows)
  else
    let rows' := rows ++ [createRow input id now]
    match get rows' id with
    | some created => (.ok created, rows')
    | none => (.createFailed, rows')

/-- The row produced by applying the `SET` clauses that `update` builds:
one clause per present input field, plus `updated_at = ?`. -/
def applyUpdate (input : UpdateStoryInput) (now : String) (r : StoryRow) : StoryRow :=
  { r with
    title := input.title.getD r.title
    excerpt := match input.excerpt with
      | some e => some e
      | none => r.excerpt
    tags := match input.tags with
      | some ts => some (jsonStringify ts)
      | none => r.tags
    word_count := input.wordCount.getD r.word_count
    updated_at := now }

/-- Whether `update` builds at least one `SET` clause. -/
def hasUpdates (input : UpdateStoryInput) : Bool :=
  input.title.isSome || input.excerpt.isSome || input.tags.isSome ||
    input.wordCount.isSome

/-- `update`: returns `null` if the id is absent; returns the existing
record untouched when no field of `input` is present; otherwise runs
`UPDATE stories SET ... WHERE id = ?` and re-reads the record. -/
def update (rows : List StoryRow) (id : String) (input : UpdateStoryInput)
    (now : String) : Option StoryMetadata × List StoryRow :=
  match get rows id with
  | none => (none, rows)
  | some existing =>
    if hasUpdates input then
      let rows' := rows.map (fun r => if r.id == id then applyUpdate input now r else r)
      (get rows' id, rows')
    else
      (some existing, rows)

/-- `delete`: `DELETE FROM stories WHERE id = ?`; true iff
`result.changes > 0`. -/
def del (rows : List StoryRow) (id : String) : Bool × List StoryRow :=
  (rows.any (fun r => r.id == id), rows.filter (fun r => !(r.id == id)))

/-- The `tags LIKE ?` pattern `%"tag"%` built for one requested tag. -/
def tagPattern (tag : String) : List Char :=
  '%' :: '"' :: tag.data ++ ['"', '%']

/-- The `WHERE` clause of `query` as a row predicate:
`author_did = ?` when `options.authorDid` is truthy, and one
`tags LIKE '%"tag"%'` conjunct per requested tag when `options.tags` is
a non-empty array.  A `NULL` `tags` column fails `LIKE`. -/
def queryWhere (options : QueryOptions) (r : StoryRow) : Bool :=
  (match truthyStr options.authorDid with
    | some a => r.author_did == a
    | none => true) &&
  (match options.tags with
    | some ts =>
      if ts.length > 0 then
        ts.all (fun tag =>
          match r.tags with
          | some txt => likeMatchWith lowerAscii (tagPattern tag) txt.data
          | none => false)
      else true
    | none => true)

/-- The column selected by `getSortField`. -/
def sortKey (f : SortField) (r : StoryRow) : String :=
  match f with
  | .publishedAt => r.published_at
  | .updatedAt => r.updated_at
  | .createdAt => r.created_at
  | .title => r.title

/-- The `ORDER BY` comparator: ascending only when
`options.sortOrder === "asc"`, on the column of `sortBy ?? "publishedAt"`. -/
def queryLt (options : QueryOptions) (a b : StoryRow) : Bool :=
  let key := sortKey (options.sortBy.getD .publishedAt)
  if options.sortOrder == some .asc then strLtB (key a) (key b)
  else strLtB (key b) (key a)

/-- `query`: `COUNT(*)` over the `WHERE` clause, then the page
`ORDER BY sortField sortOrder LIMIT ?1 OFFSET ?2` with the defaults
`limit = 20`, `offset = 0`, and `hasMore = offset + stories.length < total`. -/
def query (rows : List StoryRow) (options : QueryOptions) : QueryResult :=
  let matched := rows.filter (queryWhere options)
  let total := matched.length
  let sorted := stableSortBy (queryLt options) matched
  let limit := options.limit.getD 20
  let offset := options.offset.getD 0
  let stories := ((sorted.drop offset).take limit).map rowToMetadata
  { stories := stories
    total := total
    hasMore := decide (offset + stories.length < total) }

/-- `listByAuthor`: `query({ ...options, authorDid })`. -/
def listByAuthor (rows : List StoryRow) (authorDid : String)
    (options : QueryOptions) : QueryResult :=
  query rows { options with authorDid := some authorDid }

/-- The `WHERE` clause of `search`:
`(title LIKE '%q%' OR excerpt LIKE '%q%')`, and `author_did = ?` when
`options.authorDid` is truthy.  A `NULL` `excerpt` fails `LIKE`. -/
def searchWhere (options : SearchOptions) (r : StoryRow) : Bool :=
  let pat := '%' :: options.query.data ++ ['%']
  (likeMatchWith lowerAscii pat r.title.data ||
    (match r.excerpt with
      | some e => likeMatchWith lowerAscii pat e.data
      | none => false)) &&
  (match truthyStr options.authorDid with
    | some a => r.author_did == a
    | none => true)

/-- `search`: count over the search `WHERE` clause, then the page
`ORDER BY published_at DESC LIMIT ? OFFSET ?` with the same defaults and
`hasMore` formula as `query`. -/
def search (rows : List StoryRow) (options : SearchOptions) : QueryResult :=
  let matched := rows.filter (searchWhere options)
  let total := matched.length
  let sorted := stableSortBy (fun a b => strLtB b.published_at a.published_at) matched
  let limit := options.limit.getD 20
  let offset := options.offset.getD 0
  let stories := ((sorted.drop offset).take limit).map rowToMetadata
  { stories := stories
    total := total
    hasMore := decide (offset + stories.length < total) }

/-- `count`: `query({ ...options, limit: 1, offset: 0 }).total`. -/
def count (rows : List StoryRow) (options : QueryOptions) : Nat :=
  (query rows { options with limit := some 1, offset := some 0 }).total

end SQLiteIndexBackend

/-! ## DynamoDB backend (`src/lib/index-backends/dynamodb.ts`)

The table is a list of `StoryItem`s.  `pk = sk = "STORY#" + id` and
`gsi1pk = "AUTHOR#" + authorDid` are derived from the `id`/`authorDid`
attributes and are left implicit; `gsi1sk` (the GSI sort key, set to the
creation timestamp and never touched again) is kept explicitly.
DynamoDB's scan order is unspecified and modelled as insertion order;
`LastEvaluatedKey` is modelled as present exactly when items remain
beyond the examined window.
-/

/-- A DynamoDB item of the stories table. -/
structure StoryItem where
  id : String
  title : String
  authorDid : String
  authorName : String
  storageKey : String
  wordCount : Nat
  excerpt : Option String
  tags : Option (List String)
  publishedAt : String
  updatedAt : String
  createdAt : String
  gsi1sk : String
deriving DecidableEq, Repr

namespace DynamoDBIndexBackend

/-- `itemToMetadata`. -/
def itemToMetadata (item : StoryItem) : StoryMetadata :=
  { id := item.id
    title := item.title
    authorDid := item.authorDid
    authorName := item.authorName
    storageKey := item.storageKey
    wordCount := item.wordCount
    excerpt := item.excerpt
    tags := item.tags
    publishedAt := item.publishedAt
    updatedAt := item.updatedAt
    createdAt := item.createdAt }

/-- `PutCommand`: replaces the item with the same primary key
(`pk`/`sk`, i.e. the same `id`) if one exists, otherwise adds the item.
No condition expression is attached, so a put never fails. -/
def putItem (table : List StoryItem) (item : StoryItem) : List StoryItem :=
  if table.any (fun x => x.id == item.id) then
    table.map (fun x => if x.id == item.id then item else x)
  else table ++ [item]

/-- The item built by `create`. -/
def createItem (input : CreateStoryInput) (id now : String) : StoryItem :=
  { id := id
    title := input.title
    authorDid := input.authorDid
    authorName := input.authorName
    storageKey := input.storageKey
    wordCount := input.wordCount
    excerpt := input.excerpt
    tags := input.tags
    publishedAt := now
    updatedAt := now
    createdAt := now
    gsi1sk := now }

/-- `create`: an unconditional `PutCommand` — there is no uniqueness
check of any kind on `storageKey` — returning the metadata of the item
just written. -/
def create (table : List StoryItem) (input : CreateStoryInput) (id now : String) :
    StoryMetadata × List StoryItem :=
  let item := createItem input id now
  (itemToMetadata item, putItem table item)

/-- `get`: `GetCommand` by primary key. -/
def get (table : List StoryItem) (id : String) : Option StoryMetadata :=
  (table.find? (fun x => x.id == id)).map itemToMetadata

/-- The item produced by the `UpdateExpression` that `update` builds:
one `SET` clause per present input field, plus `updatedAt = :updatedAt`.
`gsi1sk` is not touched. -/
def applyUpdate (input : UpdateStoryInput) (now : String) (x : StoryItem) : StoryItem :=
  { x with
    title := input.title.getD x.title
    excerpt := match input.excerpt with
      | some e => some e
      | none => x.excerpt
    tags := match input.tags with
      | some ts => some ts
      | none => x.tags
    wordCount := input.wordCount.getD x.wordCount
    updatedAt := now }

/-- `update`: returns `null` if the id is absent; returns the existing
record untouched when no field of `input` is present; otherwise sends the
`UpdateCommand` and re-reads the record. -/
def update (table : List StoryItem) (id : String) (input : UpdateStoryInput)
    (now : String) : Option StoryMetadata × List StoryItem :=
  match get table id with
  | none => (none, table)
  | some existing =>
    if SQLiteIndexBackend.hasUpdates input then
      let table' := table.map (fun x => if x.id == id then applyUpdate input now x else x)
      (get table' id, table')
    else
      (some existing, table)

/-- `delete`: reads first and returns false on a miss; otherwise sends
the `DeleteCommand` and returns true. -/
def del (table : List StoryItem) (id : String) : Bool × List StoryItem :=
  match get table id with
  | none => (false, table)
  | some _ => (true, table.filter (fun x => !(x.id == id)))

/-- `ScanCommand` with an optional `Limit`: examines at most `limit`
items in scan order; the filter `begins_with(pk, "STORY#")` keeps every
item of this table.  Returns the scanned items (= `Items`, whose length
is `Count`) and whether a `LastEvaluatedKey` was returned. -/
def scan (table : List StoryItem) (limit : Option Nat) : List StoryItem × Bool :=
  match limit with
  | none => (table, false)
  | some l => (table.take l, decide (l < table.length))

/-- The in-memory tag filter `options.tags!.every(tag => tags?.includes(tag))`
(exact element membership; an item without tags matches nothing). -/
def tagsFilter (ts : List String) (tags : Option (List String)) : Bool :=
  ts.all (fun tag =>
    match tags with
    | some l => l.contains tag
    | none => false)

/-- The sort attribute read by `scanStories`. -/
def sortAttr (f : SortField) (x : StoryItem) : String :=
  match f with
  | .publishedAt => x.publishedAt
  | .updatedAt => x.updatedAt
  | .createdAt => x.createdAt
  | .title => x.title

/-- `scanStories`: scans `(limit ?? 20) * 2` items, filters by tags in
memory, sorts by `sortBy ?? "publishedAt"` via `localeCompare`
(descending unless `sortOrder === "asc"`), and takes `slice(0, limit)`.
`total` is the scan's `Count` (items scanned, before the tag filter) and
`hasMore` reflects `LastEvaluatedKey`; the offset option is never read. -/
def scanStories (table : List StoryItem) (options : QueryOptions) : QueryResult :=
  let limit := options.limit.getD 20
  let (scanned, lek) := scan table (some (limit * 2))
  let cnt := scanned.length
  let items :=
    match options.tags with
    | some ts =>
      if ts.length > 0 then scanned.filter (fun x => tagsFilter ts x.tags) else scanned
    | none => scanned
  let key := sortAttr (options.sortBy.getD .publishedAt)
  let sorted := stableSortBy
    (fun a b =>
      if options.sortOrder == some .asc then strLtB (key a) (key b)
      else strLtB (key b) (key a))
    items
  let limited := sorted.take limit
  { stories := limited.map itemToMetadata
    total := cnt
    hasMore := lek }

/-- `queryByAuthor`: a `QueryCommand` on `gsi1` with
`gsi1pk = "AUTHOR#" + authorDid`, reading at most `limit ?? 20` items in
`gsi1sk` order (reversed unless `sortOrder === "asc"`), then the
in-memory tag filter (applied whenever `options.tags` is a non-null
array) and `slice(0, limit)`.  `total` is the query's `Count` and
`hasMore` reflects `LastEvaluatedKey`; the offset and sortBy options are
never read. -/
def queryByAuthor (table : List StoryItem) (authorDid : String)
    (options : QueryOptions) : QueryResult :=
  let matching := table.filter (fun x => x.authorDid == authorDid)
  let ascOrder := stableSortBy (fun a b => strLtB a.gsi1sk b.gsi1sk) matching
  let ordered := if options.sortOrder == some .asc then ascOrder else ascOrder.reverse
  let limit := options.limit.getD 20
  let items := ordered.take limit
  let lek := decide (limit < ordered.length)
  let stories := (items.map itemToMetadata)
  let filtered :=
    match options.tags with
    | some ts => stories.filter (fun (s : StoryMetadata) => tagsFilter ts s.tags)
    | none => stories
  { stories := filtered.take limit
    total := items.length
    hasMore := lek }

/-- `query`: routes to `queryByAuthor` when `options.authorDid` is
truthy, otherwise to `scanStories`. -/
def query (table : List StoryItem) (options : QueryOptions) : QueryResult :=
  match truthyStr options.authorDid with
  | some a => queryByAuthor table a options
  | none => scanStories table options

/-- `listByAuthor`: calls `queryByAuthor` directly. -/
def listByAuthor (table : List StoryItem) (authorDid : String)
    (options : QueryOptions) : QueryResult :=
  queryByAuthor table authorDid options

/-- The in-memory search predicate:
`title.toLowerCase().includes(q) || (excerpt?.toLowerCase().includes(q) ?? false)`
with `q = options.query.toLowerCase()`. -/
def searchMatch (q : String) (x : StoryItem) : Bool :=
  listContains (jsToLower q).data (jsToLower x.title).data ||
    (match x.excerpt with
      | some e => listContains (jsToLower q).data (jsToLower e).data
      | none => false)

/-- `search`: a full scan (no `Limit`), the in-memory text match, an
`authorDid` filter when truthy, a sort by `publishedAt` descending, and
`slice(offset, offset + limit)` with `total = items.length` and
`hasMore = offset + paginated.length < items.length`. -/
def search (table : List StoryItem) (options : SearchOptions) : QueryResult :=
  let (scanned, _) := scan table none
  let items1 := scanned.filter (searchMatch options.query)
  let items2 :=
    match truthyStr options.authorDid with
    | some a => items1.filter (fun x => x.authorDid == a)
    | none => items1
  let sorted := stableSortBy (fun a b => strLtB b.publishedAt a.publishedAt) items2
  let offset := options.offset.getD 0
  let limit := options.limit.getD 20
  let paginated := (sorted.drop offset).take limit
  { stories := paginated.map itemToMetadata
    total := sorted.length
    hasMore := decide (offset + paginated.length < sorted.length) }

/-- `count`: `query({ ...options, limit: 1000 }).total`. -/
def count (table : List StoryItem) (options : QueryOptions) : Nat :=
  (query table { options with limit := some 1000 }).total

end DynamoDBIndexBackend

/-! ## Postgres backend (`src/lib/index-backends/postgres.ts`)

One `stories` table with `id UUID PRIMARY KEY DEFAULT gen_random_uuid()`
and `storage_key TEXT NOT NULL UNIQUE` (`init`); `tags` is a native
`TEXT[]` column and `excerpt` is nullable.  The `TIMESTAMPTZ` values
are carried as ISO strings like every other timestamp here; the
DB-generated UUID and the `DEFAULT NOW()` timestamps are passed in as
the `id`/`now` parameters.  An `INSERT` that violates the PRIMARY KEY
or the UNIQUE constraint makes the driver throw (SQLSTATE 23505,
unique violation), modelled by `PgOutcome.uniqueViolation`; rows are
kept in insertion order.
-/

/-- A row of the Postgres `stories` table: `tags` is a native string
array (`TEXT[]`) or `NULL`. -/
structure PgRow where
  id : String
  title : String
  author_did : String
  author_name : String
  storage_key : String
  word_count : Nat
  excerpt : Option String
  tags : Option (List String)
  published_at : String
  updated_at : String
  created_at : String
deriving DecidableEq, Repr

/-- Outcome of `PostgresIndexBackend.create`: the metadata of the
`RETURNING *` row, or the constraint-violation error thrown by the
driver. -/
inductive PgOutcome
  | ok (created : StoryMetadata)
  | uniqueViolation
deriving DecidableEq, Repr

namespace PostgresIndexBackend

/-- `rowToMetadata` (lines 90–104): `excerpt ?? undefined` and
`tags ?? undefined` pass the nullable column values through. -/
def rowToMetadata (row : PgRow) : StoryMetadata :=
  { id := row.id
    title := row.title
    authorDid := row.author_did
    authorName := row.author_name
    storageKey := row.storage_key
    wordCount := row.word_count
    excerpt := row.excerpt
    tags := row.tags
    publishedAt := row.published_at
    updatedAt := row.updated_at
    createdAt := row.created_at }

/-- `get` (lines 125–136): `SELECT * FROM stories WHERE id = $1`. -/
def get (rows : List PgRow) (id : String) : Option StoryMetadata :=
  (rows.find? (fun r => r.id == id)).map rowToMetadata

/-- The row inserted by `create`: the DB fills `id` with a fresh UUID
and the three timestamps with `NOW()`. -/
def createRow (input : CreateStoryInput) (id now : String) : PgRow :=
  { id := id
    title := input.title
    author_did := input.authorDid
    author_name := input.authorName
    storage_key := input.storageKey
    word_count := input.wordCount
    excerpt := input.excerpt
    tags := input.tags
    published_at := now
    updated_at := now
    created_at := now }

/-- `create` (lines 106–123): the `INSERT … RETURNING *` throws on a
PRIMARY KEY (`id`) or UNIQUE (`storage_key`) violation, leaving the
table unchanged; otherwise the new row is appended and its metadata
returned. -/
def create (rows : List PgRow) (input : CreateStoryInput) (id now : String) :
    PgOutcome × List PgRow :=
  if rows.any (fun r => r.id == id || r.storage_key == input.storageKey) then
    (.uniqueViolation, rows)
  else
    let row := createRow input id now
    (.ok (rowToMetadata row), rows ++ [row])

/-- Whether `update` builds at least one `SET` clause (lines 143–158). -/
def hasUpdates (input : UpdateStoryInput) : Bool :=
  input.title.isSome || input.excerpt.isSome || input.tags.isSome ||
    input.wordCount.isSome

/-- The row produced by the `SET` clauses `update` builds: one per
present input field, plus `updated_at`. -/
def applyUpdate (input : UpdateStoryInput) (now : String) (r : PgRow) : PgRow :=
  { r with
    title := input.title.getD r.title
    excerpt := match input.excerpt with
      | some e => some e
      | none => r.excerpt
    tags := match input.tags with
      | some ts => some ts
      | none => r.tags
    word_count := input.wordCount.getD r.word_count
    updated_at := now }

/-- `update` (lines 138–178): with no present field it returns
`this.get(id)` without touching the table (lines 160–162); otherwise it
runs `UPDATE … WHERE id = $n RETURNING *`, whose empty row set (a
missing id) yields `null`. -/
def update (rows : List PgRow) (id : String) (input : UpdateStoryInput)
    (now : String) : Option StoryMetadata × List PgRow :=
  if hasUpdates input then
    let rows' := rows.map (fun r => if r.id == id then applyUpdate input now r else r)
    ((rows'.find? (fun r => r.id == id)).map rowToMetadata, rows')
  else
    (get rows id, rows)

/-- `delete` (lines 180–183): `rowCount > 0`. -/
def del (rows : List PgRow) (id : String) : Bool × List PgRow :=
  (rows.any (fun r => r.id == id), rows.filter (fun r => !(r.id == id)))

/-- The `WHERE` clause of `query` (lines 190–198): `author_did = $n`
when `options.authorDid` is truthy, and `tags @> $n` when
`options.tags` is a non-empty array — Postgres array containment, true
exactly when every requested tag is an element of the row's `tags`
array; a `NULL` `tags` column fails the containment test. -/
def queryWhere (options : QueryOptions) (r : PgRow) : Bool :=
  (match truthyStr options.authorDid with
    | some a => r.author_did == a
    | none => true) &&
  (match options.tags with
    | some ts =>
      if ts.length > 0 then
        match r.tags with
        | some l => ts.all (fun tag => l.contains tag)
        | none => false
      else true
    | none => true)

/-- The column selected by `getSortField` (lines 285–293). -/
def sortKey (f : SortField) (r : PgRow) : String :=
  match f with
  | .publishedAt => r.published_at
  | .updatedAt => r.updated_at
  | .createdAt => r.created_at
  | .title => r.title

/-- The `ORDER BY` comparator (lines 210–211): ascending only when
`options.sortOrder === "asc"`, on the column of `sortBy ?? "publishedAt"`. -/
def queryLt (options : QueryOptions) (a b : PgRow) : Bool :=
  let key := sortKey (options.sortBy.getD .publishedAt)
  if options.sortOrder == some .asc then strLtB (key a) (key b)
  else strLtB (key b) (key a)

/-- `query` (lines 185–231): `COUNT(*)` over the `WHERE` clause, then
the `ORDER BY … LIMIT $n OFFSET $m` page with the defaults
`limit = 20`, `offset = 0`, and `hasMore = offset + stories.length < total`. -/
def query (rows : List PgRow) (options : QueryOptions) : QueryResult :=
  let matched := rows.filter (queryWhere options)
  let total := matched.length
  let sorted := stableSortBy (queryLt options) matched
  let limit := options.limit.getD 20
  let offset := options.offset.getD 0
  let stories := ((sorted.drop offset).take limit).map rowToMetadata
  { stories := stories
    total := total
    hasMore := decide (offset + stories.length < total) }

/-- `listByAuthor` (lines 233–238): `query({ ...options, authorDid })`. -/
def listByAuthor (rows : List PgRow) (authorDid : String)
    (options : QueryOptions) : QueryResult :=
  query rows { options with authorDid := some authorDid }

/-- The `WHERE` clause of `search` (lines 241–251):
`(title ILIKE '%q%' OR excerpt ILIKE '%q%')` — `ILIKE` is
case-insensitive `LIKE` — and `author_did = $n` when `options.authorDid`
is truthy.  A `NULL` `excerpt` fails `ILIKE`. -/
def searchWhere (options : SearchOptions) (r : PgRow) : Bool :=
  let pat := '%' :: options.query.data ++ ['%']
  (likeMatchWith lowerAscii pat r.title.data ||
    (match r.excerpt with
      | some e => likeMatchWith lowerAscii pat e.data
      | none => false)) &&
  (match truthyStr options.authorDid with
    | some a => r.author_did == a
    | none => true)

/-- `search` (lines 240–278): count over the search `WHERE` clause,
then the `ORDER BY published_at DESC LIMIT $n OFFSET $m` page with the
same defaults and `hasMore` formula as `query`. -/
def search (rows : List PgRow) (options : SearchOptions) : QueryResult :=
  let matched := rows.filter (searchWhere options)
  let total := matched.length
  let sorted := stableSortBy (fun a b => strLtB b.published_at a.published_at) matched
  let limit := options.limit.getD 20
  let offset := options.offset.getD 0
  let stories := ((sorted.drop offset).take limit).map rowToMetadata
  { stories := stories
    total := total
    hasMore := decide (offset + stories.length < total) }

/-- `count` (lines 280–283): `query({ ...options, limit: 1, offset: 0 }).total`. -/
def count (rows : List PgRow) (options : QueryOptions) : Nat :=
  (query rows { options with limit := some 1, offset := some 0 }).total

end PostgresIndexBackend

/-! ## Path arithmetic (`node:path`)

`path.join` concatenates with `/` and normalizes: empty and `.`
segments disappear, and `..` pops the previous segment (never rising
above the root of an absolute path).  `path.relative` compares the
normalized segment lists.
-/

/-- Split a path into `/`-separated segments. -/
def splitSegs (s : String) : List String :=
  (splitOnChar '/' s.data).map String.mk

/-- Normalization stack machine over path segmentsreversed-accumulator
style; `abs` records whether the path is absolute (a leading `..` is
dropped at the root of an absolute path). -/
def normStack (abs : Bool) : List String → List String → List String
  | stack, [] => stack.reverse
  | stack, seg :: rest =>
    if seg = "" || seg = "." then normStack abs stack rest
    else if seg = ".." then
      match stack with
      | top :: stk' =>
        if top = ".." then normStack abs (seg :: stack) rest
        else normStack abs stk' rest
      | [] => if abs then normStack abs [] rest else normStack abs [seg] rest
    else normStack abs (seg :: stack) rest

/-- `path.join(a, b)`. -/
def pathJoin (a b : String) : String :=
  let abs := strStartsWith a "/"
  let segs := normStack abs [] (splitSegs (a ++ "/" ++ b))
  let body := intercalateStr "/" segs
  if abs then "/" ++ body else if body = "" then "." else body

/-- Drop the longest common leading run of two segment lists. -/
def dropCommon : List String → List String → List String × List String
  | a :: as, b :: bs => if a = b then dropCommon as bs else (a :: as, b :: bs)
  | as, bs => (as, bs)

/-- `path.relative(base, target)` for absolute inputs: `..` segments up
from `base` to the common ancestor, then down into `target`. -/
def pathRelative (base target : String) : String :=
  let f := normStack true [] (splitSegs base)
  let t := normStack true [] (splitSegs target)
  let (fRest, tRest) := dropCommon f t
  intercalateStr "/" (fRest.map (fun _ => "..") ++ tRest)

/-- The final segment of a path (`entry.name` for a file path). -/
def pathBaseName (p : String) : String :=
  ((splitSegs p).reverse.head?).getD p

/-- Whether path `p` lies strictly inside directory `dir`. -/
def isUnder (dir p : String) : Bool :=
  strStartsWith p (dir ++ "/")

/-! ## Storage data model (`src/lib/types/storage.ts`) -/

/-- `StoryFileMetadata`.  `lastModified` (a `Date`) is carried as a
millisecond count; `size` is the byte length of the stored content. -/
structure StoryFileMetadata where
  key : String
  size : Nat
  contentType : String
  lastModified : Nat
  etag : Option String
deriving DecidableEq, Repr

/-- `ListOptions`.  `pfx` stands for the source's `prefix` option. -/
structure ListOptions where
  pfx : Option String
  maxResults : Option Nat
  continuationToken : Option String
deriving DecidableEq, Repr

/-- `ListOptions` with every field omitted. -/
def noListOptions : ListOptions :=
  { pfx := none, maxResults := none, continuationToken := none }

/-- `ListResult`. -/
structure ListResult where
  files : List StoryFileMetadata
  continuationToken : Option String
  hasMore : Bool
deriving DecidableEq, Repr

/-! ## Local filesystem backend (`src/lib/storage/local.ts`)

The filesystem is modelled as a flat association of absolute file paths
to content and modification time, in creation order; directories are
implicit (`mkdir -p` before a write is a no-op on the model, and
`readdir` of a directory with no files under it coincides with the
ENOENT branch, both yielding an empty listing).
-/

/-- `parseInt(s, 10)` as the listing uses it on continuation tokens:
the value of the leading digit run, or `none` for `NaN` when there is
none.  (Signs and leading whitespace never occur in the tokens this
backend produces and are outside the model.) -/
def jsParseInt (s : String) : Option Nat :=
  let ds := s.data.takeWhile (fun c => c.isDigit)
  if ds.isEmpty then none
  else some (ds.foldl (fun n c => n * 10 + (c.toNat - 48)) 0)

/-- One regular file. -/
structure FsEntry where
  path : String
  content : String
  mtime : Nat
deriving DecidableEq, Repr

namespace LocalStorageBackend

/-- `getFullPath`: `join(this.baseDir, key)`. -/
def getFullPath (baseDir key : String) : String :=
  pathJoin baseDir key

/-- `get`: `readFile` of the resolved path, `null` on ENOENT. -/
def get (fs : List FsEntry) (baseDir key : String) : Option String :=
  (fs.find? (fun e => e.path == getFullPath baseDir key)).map (fun e => e.content)

/-- `put`: `mkdir -p` the parent, then `writeFile`, overwriting any
existing file at that path; `mtime` becomes the time of the write. -/
def put (fs : List FsEntry) (baseDir key content : String) (mtime : Nat) :
    List FsEntry :=
  let p := getFullPath baseDir key
  if fs.any (fun e => e.path == p) then
    fs.map (fun e => if e.path == p then { e with content := content, mtime := mtime } else e)
  else fs ++ [{ path := p, content := content, mtime := mtime }]

/-- `delete`: `unlink`, false on ENOENT. -/
def del (fs : List FsEntry) (baseDir key : String) : Bool × List FsEntry :=
  let p := getFullPath baseDir key
  if fs.any (fun e => e.path == p) then
    (true, fs.filter (fun e => !(e.path == p)))
  else (false, fs)

/-- `exists`: `stat` succeeds.  (Named `existsKey` here; `exists` is a
Lean keyword.) -/
def existsKey (fs : List FsEntry) (baseDir key : String) : Bool :=
  fs.any (fun e => e.path == getFullPath baseDir key)

/-- `getMetadata`: `stat` of the resolved path. -/
def getMetadata (fs : List FsEntry) (baseDir key : String) :
    Option StoryFileMetadata :=
  (fs.find? (fun e => e.path == getFullPath baseDir key)).map (fun e =>
    { key := key
      size := e.content.length
      contentType := "text/markdown"
      lastModified := e.mtime
      etag := none })

/-- `listFilesRecursive(dir)`: every regular file below `dir` whose name
ends with `".md"`, as `StoryFileMetadata` keyed by
`relative(this.baseDir, fullPath)`. -/
def listFilesRecursive (fs : List FsEntry) (baseDir dir : String) :
    List StoryFileMetadata :=
  (fs.filter (fun e => isUnder dir e.path && strEndsWith (pathBaseName e.path) ".md")).map
    (fun e =>
      { key := pathRelative baseDir e.path
        size := e.content.length
        contentType := "text/markdown"
        lastModified := e.mtime
        etag := none })

/-- `list`: recursive listing of `join(baseDir, prefix)` (or `baseDir`
when the prefix option is falsy), sorted newest-first by modification
time, then offset pagination with the offset `parseInt`-ed from the
continuation token (0 when the token is absent), `limit = maxResults
?? 100`, `hasMore = offset + limit < files.length`, and a continuation
token `String(offset + limit)` exactly when `hasMore`.  A non-numeric
token parses to `NaN`, for which `slice(NaN, NaN + limit)` is the
empty page and `NaN + limit < files.length` is false. -/
def list (fs : List FsEntry) (baseDir : String) (options : ListOptions) :
    ListResult :=
  let searchDir :=
    match truthyStr options.pfx with
    | some p => pathJoin baseDir p
    | none => baseDir
  let files := listFilesRecursive fs baseDir searchDir
  let sorted := stableSortBy (fun a b => b.lastModified < a.lastModified) files
  let offsetOrNaN :=
    match options.continuationToken with
    | none => some 0
    | some tok => jsParseInt tok
  match offsetOrNaN with
  | none => { files := [], continuationToken := none, hasMore := false }
  | some offset =>
    let limit := options.maxResults.getD 100
    let page := (sorted.drop offset).take limit
    let more := decide (offset + limit < sorted.length)
    { files := page
      continuationToken := if more then some (toString (offset + limit)) else none
      hasMore := more }

end LocalStorageBackend

/-! ## S3 backend (`src/lib/storage/s3.ts`)

A bucket is an association of full object keys to string bodies, in
creation order.  `cfgPfx` is the backend's configured `prefix` (empty
when absent).
-/

/-- One S3 object. -/
structure S3Object where
  key : String
  body : String
deriving DecidableEq, Repr

namespace S3StorageBackend

/-- `getFullKey`: prefixes the key with `"<prefix>/"` when the
configured prefix is truthy. -/
def getFullKey (cfgPfx key : String) : String :=
  if cfgPfx = "" then key else cfgPfx ++ "/" ++ key

/-- `get`: `GetObjectCommand`, `null` on `NoSuchKey`. -/
def get (bucket : List S3Object) (cfgPfx key : String) : Option String :=
  (bucket.find? (fun o => o.key == getFullKey cfgPfx key)).map (fun o => o.body)

/-- `put`: `PutObjectCommand`, overwriting unconditionally. -/
def put (bucket : List S3Object) (cfgPfx key content : String) : List S3Object :=
  let k := getFullKey cfgPfx key
  if bucket.any (fun o => o.key == k) then
    bucket.map (fun o => if o.key == k then { o with body := content } else o)
  else bucket ++ [{ key := k, body := content }]

/-- `exists`: `HeadObjectCommand` succeeds.  (Named `existsKey` here;
`exists` is a Lean keyword.) -/
def existsKey (bucket : List S3Object) (cfgPfx key : String) : Bool :=
  bucket.any (fun o => o.key == getFullKey cfgPfx key)

/-- `delete`: checks `exists` first and returns false on a miss,
otherwise sends `DeleteObjectCommand` and returns true. -/
def del (bucket : List S3Object) (cfgPfx key : String) : Bool × List S3Object :=
  if existsKey bucket cfgPfx key then
    (true, bucket.filter (fun o => !(o.key == getFullKey cfgPfx key)))
  else (false, bucket)

end S3StorageBackend

/-! ## Specification-side definitions

These definitions follow the wording of the specification (case-
insensitive substring search, exact-element tag membership, the uniform
pagination contract); the theorems below compare the backends against
them. -/

/-- Case-insensitive substring containment, the spec's search notion:
`needle` occurs in `hay` after lower-casing both. -/
def ciContains (needle hay : String) : Bool :=
  listContains (jsToLower needle).data (jsToLower hay).data

/-- The spec's search predicate on a record: the query occurs
case-insensitively in the title or in the excerpt. -/
def specSearchMatch (q : String) (m : StoryMetadata) : Bool :=
  ciContains q m.title ||
    (match m.excerpt with
      | some e => ciContains q e
      | none => false)

/-- The spec's search pipeline on the logical record list: filter by the
case-insensitive substring predicate and the optional author, sort by
publishedAt descending, count before pagination, and page by
offset/limit with `hasMore = offset + returned < total`. -/
def idealSearch (records : List StoryMetadata) (options : SearchOptions) :
    QueryResult :=
  let matched := records.filter (fun m =>
    specSearchMatch options.query m &&
      (match truthyStr options.authorDid with
        | some a => m.authorDid == a
        | none => true))
  let sorted := stableSortBy (fun a b => strLtB b.publishedAt a.publishedAt) matched
  let limit := options.limit.getD 20
  let offset := options.offset.getD 0
  let stories := (sorted.drop offset).take limit
  { stories := stories
    total := matched.length
    hasMore := decide (offset + stories.length < matched.length) }

/-- A query string free of SQL `LIKE` metacharacters, for which a
`LIKE '%q%'` test coincides with substring containment. -/
def noWild (s : String) : Bool :=
  s.data.all (fun c => !(c = '%' || c = '_'))

/-- A path segment that survives normalization (not `""`, `"."` or
`".."`). -/
def isRealSeg (s : String) : Bool :=
  !(s == "" || s == "." || s == "..")

/-! ## Concrete fixtures

Shared concrete states used by the scenario theorems, built through the
backends' own `create` operations. -/

/-- A creation input with the scenario's fixed author and tags. -/
def fxInput (t sk : String) : CreateStoryInput :=
  { title := t, authorDid := "did:plc:alice", authorName := "Alice",
    storageKey := sk, wordCount := 975, excerpt := none,
    tags := some ["fiction", "family"] }

/-- SQLite table holding three records published 2024-01-13/14/15 (the
spec's concrete pagination scenario), created in publication order. -/
def sqlRows3 : List StoryRow :=
  let r1 := (SQLiteIndexBackend.create [] (fxInput "S13" "k13") "id13"
    "2024-01-13T00:00:00.000Z").2
  let r2 := (SQLiteIndexBackend.create r1 (fxInput "S14" "k14") "id14"
    "2024-01-14T00:00:00.000Z").2
  (SQLiteIndexBackend.create r2 (fxInput "S15" "k15") "id15"
    "2024-01-15T00:00:00.000Z").2

/-- The same three records in the DynamoDB backend. -/
def ddbItems3 : List StoryItem :=
  let t1 := (DynamoDBIndexBackend.create [] (fxInput "S13" "k13") "id13"
    "2024-01-13T00:00:00.000Z").2
  let t2 := (DynamoDBIndexBackend.create t1 (fxInput "S14" "k14") "id14"
    "2024-01-14T00:00:00.000Z").2
  (DynamoDBIndexBackend.create t2 (fxInput "S15" "k15") "id15"
    "2024-01-15T00:00:00.000Z").2

/-- The same three records in the Postgres backend. -/
def pgRows3 : List PgRow :=
  let r1 := (PostgresIndexBackend.create [] (fxInput "S13" "k13") "id13"
    "2024-01-13T00:00:00.000Z").2
  let r2 := (PostgresIndexBackend.create r1 (fxInput "S14" "k14") "id14"
    "2024-01-14T00:00:00.000Z").2
  (PostgresIndexBackend.create r2 (fxInput "S15" "k15") "id15"
    "2024-01-15T00:00:00.000Z").2

/-- SQLite table holding one record titled "Digital Ghosts". -/
def ghostRows : List StoryRow :=
  (SQLiteIndexBackend.create [] (fxInput "Digital Ghosts" "kg") "idg"
    "2024-03-01T00:00:00.000Z").2

/-- The "Digital Ghosts" record in the DynamoDB backend. -/
def ghostItems : List StoryItem :=
  (DynamoDBIndexBackend.create [] (fxInput "Digital Ghosts" "kg") "idg"
    "2024-03-01T00:00:00.000Z").2

/-- SQLite table holding one record titled "xyz" (for the `LIKE`
wildcard divergence). -/
def xyzRows : List StoryRow :=
  (SQLiteIndexBackend.create [] (fxInput "xyz" "kx") "idx"
    "2024-03-01T00:00:00.000Z").2

/-- The "xyz" record in the DynamoDB backend. -/
def xyzItems : List StoryItem :=
  (DynamoDBIndexBackend.create [] (fxInput "xyz" "kx") "idx"
    "2024-03-01T00:00:00.000Z").2

/-- The spec scenario's first-page options:
`{sortBy: "publishedAt", sortOrder: "desc", limit: 2}`. -/
def descOpts2 : QueryOptions :=
  { noOptions with
    sortBy := some SortField.publishedAt
    sortOrder := some SortDir.desc
    limit := some 2 }

/-- The spec scenario's follow-up options (offset 2). -/
def descOpts2off : QueryOptions :=
  { descOpts2 with offset := some 2 }

/-- The record-level frame property of `update` (claim C6): the
immutable fields and every field absent from the partial input keep
their values, present fields take the given values, and `updatedAt`
becomes the call time (hence advances strictly whenever the clock
does). -/
def updateFrame (before after : StoryMetadata) (input : UpdateStoryInput)
    (now : String) : Prop :=
  after.id = before.id ∧
  after.authorDid = before.authorDid ∧
  after.authorName = before.authorName ∧
  after.storageKey = before.storageKey ∧
  after.createdAt = before.createdAt ∧
  after.publishedAt = before.publishedAt ∧
  (input.title = none → after.title = before.title) ∧
  (∀ t, input.title = some t → after.title = t) ∧
  (input.excerpt = none → after.excerpt = before.excerpt) ∧
  (∀ e, input.excerpt = some e → after.excerpt = some e) ∧
  (input.tags = none → after.tags = before.tags) ∧
  (input.wordCount = none → after.wordCount = before.wordCount) ∧
  (∀ w, input.wordCount = some w → after.wordCount = w) ∧
  after.updatedAt = now ∧
  (strLtB before.updatedAt now = true → strLtB before.updatedAt after.updatedAt = true)

/-- The metadata of the 2024-01-13 fixture record as stored. -/
def fxBefore13 : StoryMetadata :=
  { id := "id13", title := "S13", authorDid := "did:plc:alice",
    authorName := "Alice", storageKey := "k13", wordCount := 975,
    excerpt := none, tags := some ["fiction", "family"],
    publishedAt := "2024-01-13T00:00:00.000Z",
    updatedAt := "2024-01-13T00:00:00.000Z",
    createdAt := "2024-01-13T00:00:00.000Z" }

/-- An update input carrying only a new title. -/
def fxTitleUpdate : UpdateStoryInput :=
  { emptyUpdate with title := some "A Better Title" }

/-- A search with only a query string. -/
def searchOnly (q : String) : SearchOptions :=
  { query := q, authorDid := none, limit := none, offset := none }

/-! ## General lemmas about the helper functions -/

theorem mem_insertBy {lt : α → α → Bool} {x a : α} :
    ∀ {l : List α}, a ∈ insertBy lt x l ↔ a = x ∨ a ∈ l
  | [] => by simp [insertBy]
  | y :: ys => by
    unfold insertBy
    split
    · simp only [List.mem_cons, mem_insertBy (l := ys)]
      tauto
    · simp only [List.mem_cons]

theorem length_insertBy {lt : α → α → Bool} {x : α} :
    ∀ {l : List α}, (insertBy lt x l).length = l.length + 1
  | [] => rfl
  | y :: ys => by
    unfold insertBy
    split
    · simp [length_insertBy (l := ys)]
    · simp

theorem mem_stableSortBy {lt : α → α → Bool} {a : α} :
    ∀ {l : List α}, a ∈ stableSortBy lt l ↔ a ∈ l
  | [] => Iff.rfl
  | x :: xs => by
    simp [stableSortBy, mem_insertBy, mem_stableSortBy (l := xs)]

theorem length_stableSortBy {lt : α → α → Bool} :
    ∀ {l : List α}, (stableSortBy lt l).length = l.length
  | [] => rfl
  | x :: xs => by
    simp [stableSortBy, length_insertBy, length_stableSortBy (l := xs)]

theorem insertBy_map (f : α → β) (lt : β → β → Bool) (x : α) :
    ∀ (l : List α),
      insertBy lt (f x) (l.map f) = (insertBy (fun a b => lt (f a) (f b)) x l).map f
  | [] => rfl
  | y :: ys => by
    simp only [List.map_cons, insertBy]
    split
    · rw [insertBy_map f lt x ys]
      simp
    · simp

theorem stableSortBy_map (f : α → β) (lt : β → β → Bool) :
    ∀ (l : List α),
      stableSortBy lt (l.map f) = (stableSortBy (fun a b => lt (f a) (f b)) l).map f
  | [] => rfl
  | x :: xs => by
    simp only [List.map_cons, stableSortBy]
    rw [stableSortBy_map f lt xs, insertBy_map]

theorem filter_map_comm (f : α → β) (p : β → Bool) :
    ∀ (l : List α), (l.map f).filter p = (l.filter (fun a => p (f a))).map f
  | [] => rfl
  | x :: xs => by
    simp only [List.map_cons, List.filter_cons]
    split
    · simp only [List.map_cons, filter_map_comm f p xs]
    · exact filter_map_comm f p xs

theorem find?_map_ite {p : α → Bool} (g : α → α) (hg : ∀ a, p (g a) = p a) :
    ∀ (l : List α),
      (l.map (fun a => if p a then g a else a)).find? p = (l.find? p).map g
  | [] => rfl
  | x :: xs => by
    simp only [List.map_cons]
    by_cases hx : p x = true
    · rw [if_pos hx]
      rw [List.find?_cons_of_pos _ (by rw [hg]; exact hx),
        List.find?_cons_of_pos _ hx]
      rfl
    · rw [if_neg hx]
      rw [List.find?_cons_of_neg _ (by simpa using hx),
        List.find?_cons_of_neg _ (by simpa using hx)]
      exact find?_map_ite g hg xs

theorem chunks_flatMap (l : List α) (L : Nat) :
    ∀ N, (List.range N).flatMap (fun k => (l.drop (k * L)).take L) = l.take (N * L)
  | 0 => by simp
  | N + 1 => by
    rw [List.range_succ, List.flatMap_append, chunks_flatMap l L N]
    simp only [List.flatMap_cons, List.flatMap_nil, List.append_nil]
    rw [Nat.succ_mul, List.take_add]

theorem tails_any_isEmpty : ∀ (t : List α), (t.tails).any (fun s => s.isEmpty) = true
  | [] => rfl
  | x :: xs => by
    rw [List.tails_cons, List.any_cons, tails_any_isEmpty xs, Bool.or_true]

theorem tails_map (f : α → β) :
    ∀ (t : List α), (t.map f).tails = (t.tails).map (List.map f)
  | [] => rfl
  | x :: xs => by
    rw [List.map_cons, List.tails_cons, List.tails_cons, List.map_cons,
      tails_map f xs, List.map_cons]

/-! ## `LIKE '%q%'` coincides with case-folded substring containment
for patterns free of `%` and `_` -/

theorem likeMatchWith_nil (f : Char → Char) (t : List Char) :
    likeMatchWith f [] t = t.isEmpty := by
  simp [likeMatchWith]

theorem likeMatch_lit_percent {f : Char → Char} :
    ∀ {q : List Char}, q.all (fun c => !(c = '%' || c = '_')) = true →
      ∀ t, likeMatchWith f (q ++ ['%']) t = (q.map f).isPrefixOf (t.map f)
  | [], _, t => by
    simp only [List.nil_append, List.map_nil]
    have h1 : likeMatchWith f ['%'] t = (t.tails).any (fun s => likeMatchWith f [] s) := by
      simp [likeMatchWith]
    rw [h1]
    have h2 : (fun s => likeMatchWith f [] s) = (fun s : List Char => s.isEmpty) := by
      funext s
      exact likeMatchWith_nil f s
    rw [h2, tails_any_isEmpty]
    simp [List.isPrefixOf]
  | c :: q', hq, t => by
    have hc : ¬(c = '%') ∧ ¬(c = '_') := by
      have := (List.all_eq_true.mp hq) c (by simp)
      simpa using this
    have hq' : q'.all (fun c => !(c = '%' || c = '_')) = true :=
      List.all_eq_true.mpr (fun x hx => (List.all_eq_true.mp hq) x (by simp [hx]))
    rw [List.cons_append]
    simp only [likeMatchWith, if_neg hc.1, if_neg hc.2]
    cases t with
    | nil => simp [List.isPrefixOf]
    | cons d ts =>
      simp only [List.map_cons, List.isPrefixOf]
      rw [likeMatch_lit_percent hq' ts]

theorem likeMatch_percent_wrap {f : Char → Char} {q : List Char}
    (hq : q.all (fun c => !(c = '%' || c = '_')) = true) (t : List Char) :
    likeMatchWith f ('%' :: (q ++ ['%'])) t = listContains (q.map f) (t.map f) := by
  have h1 : likeMatchWith f ('%' :: (q ++ ['%'])) t =
      (t.tails).any (fun s => likeMatchWith f (q ++ ['%']) s) := by
    simp [likeMatchWith]
  rw [h1]
  have h2 : (fun s => likeMatchWith f (q ++ ['%']) s) =
      (fun s : List Char => (q.map f).isPrefixOf (s.map f)) := by
    funext s
    exact likeMatch_lit_percent hq s
  rw [h2]
  unfold listContains
  rw [tails_map, List.any_map]
  rfl

/-! ## Search refinement: each backend's `search` against `idealSearch` -/

theorem searchWhere_eq_spec (o : SearchOptions) (hq : noWild o.query = true)
    (r : StoryRow) :
    SQLiteIndexBackend.searchWhere o r =
      (specSearchMatch o.query (SQLiteIndexBackend.rowToMetadata r) &&
        (match truthyStr o.authorDid with
          | some a => (SQLiteIndexBackend.rowToMetadata r).authorDid == a
          | none => true)) := by
  have hq' : o.query.data.all (fun c => !(c = '%' || c = '_')) = true := hq
  unfold SQLiteIndexBackend.searchWhere specSearchMatch
  cases hre : r.excerpt with
  | none =>
    simp only [SQLiteIndexBackend.rowToMetadata, hre, List.cons_append]
    rw [likeMatch_percent_wrap hq']
    rfl
  | some e =>
    simp only [SQLiteIndexBackend.rowToMetadata, hre, List.cons_append]
    rw [likeMatch_percent_wrap hq', likeMatch_percent_wrap hq']
    rfl

theorem sqlite_search_spec (rows : List StoryRow) (o : SearchOptions)
    (hq : noWild o.query = true) :
    SQLiteIndexBackend.search rows o =
      idealSearch (rows.map SQLiteIndexBackend.rowToMetadata) o := by
  have key : (rows.map SQLiteIndexBackend.rowToMetadata).filter (fun m =>
      specSearchMatch o.query m &&
        (match truthyStr o.authorDid with
          | some a => m.authorDid == a
          | none => true)) =
      (rows.filter (SQLiteIndexBackend.searchWhere o)).map
        SQLiteIndexBackend.rowToMetadata := by
    rw [filter_map_comm]
    congr 1
    exact List.filter_congr (fun r _ => (searchWhere_eq_spec o hq r).symm)
  simp only [SQLiteIndexBackend.search, idealSearch]
  rw [key, stableSortBy_map, ← List.map_drop, ← List.map_take]
  simp only [List.length_map]
  rfl

theorem dynamo_search_spec (table : List StoryItem) (o : SearchOptions) :
    DynamoDBIndexBackend.search table o =
      idealSearch (table.map DynamoDBIndexBackend.itemToMetadata) o := by
  simp only [DynamoDBIndexBackend.search, DynamoDBIndexBackend.scan, idealSearch]
  cases hA : truthyStr o.authorDid with
  | none =>
    simp only [Bool.and_true]
    have key : (table.map DynamoDBIndexBackend.itemToMetadata).filter
        (fun m => specSearchMatch o.query m) =
        (table.filter (DynamoDBIndexBackend.searchMatch o.query)).map
          DynamoDBIndexBackend.itemToMetadata := by
      rw [filter_map_comm]
      rfl
    rw [key, stableSortBy_map, ← List.map_drop, ← List.map_take]
    simp only [List.length_map, length_stableSortBy]
    rfl
  | some a =>
    have key : (table.map DynamoDBIndexBackend.itemToMetadata).filter
        (fun m => specSearchMatch o.query m && (m.authorDid == a)) =
        ((table.filter (DynamoDBIndexBackend.searchMatch o.query)).filter
          (fun (x : StoryItem) => x.authorDid == a)).map
          DynamoDBIndexBackend.itemToMetadata := by
      rw [filter_map_comm, List.filter_filter]
      congr 1
      refine List.filter_congr (fun x _ => ?_)
      simp only [DynamoDBIndexBackend.searchMatch, specSearchMatch, ciContains,
        DynamoDBIndexBackend.itemToMetadata]
      rw [Bool.and_comm]
    rw [key, stableSortBy_map, ← List.map_drop, ← List.map_take]
    simp only [List.length_map, length_stableSortBy]
    rfl

theorem pg_searchWhere_eq_spec (o : SearchOptions) (hq : noWild o.query = true)
    (r : PgRow) :
    PostgresIndexBackend.searchWhere o r =
      (specSearchMatch o.query (PostgresIndexBackend.rowToMetadata r) &&
        (match truthyStr o.authorDid with
          | some a => (PostgresIndexBackend.rowToMetadata r).authorDid == a
          | none => true)) := by
  have hq' : o.query.data.all (fun c => !(c = '%' || c = '_')) = true := hq
  unfold PostgresIndexBackend.searchWhere specSearchMatch
  cases hre : r.excerpt with
  | none =>
    simp only [PostgresIndexBackend.rowToMetadata, hre, List.cons_append]
    rw [likeMatch_percent_wrap hq']
    rfl
  | some e =>
    simp only [PostgresIndexBackend.rowToMetadata, hre, List.cons_append]
    rw [likeMatch_percent_wrap hq', likeMatch_percent_wrap hq']
    rfl

theorem pg_search_spec (rows : List PgRow) (o : SearchOptions)
    (hq : noWild o.query = true) :
    PostgresIndexBackend.search rows o =
      idealSearch (rows.map PostgresIndexBackend.rowToMetadata) o := by
  have key : (rows.map PostgresIndexBackend.rowToMetadata).filter (fun m =>
      specSearchMatch o.query m &&
        (match truthyStr o.authorDid with
          | some a => m.authorDid == a
          | none => true)) =
      (rows.filter (PostgresIndexBackend.searchWhere o)).map
        PostgresIndexBackend.rowToMetadata := by
    rw [filter_map_comm]
    congr 1
    exact List.filter_congr (fun r _ => (pg_searchWhere_eq_spec o hq r).symm)
  simp only [PostgresIndexBackend.search, idealSearch]
  rw [key, stableSortBy_map, ← List.map_drop, ← List.map_take]
  simp only [List.length_map]
  rfl

/-! ## Path normalization lemmas (for the local-store listing) -/

theorem splitOnChar_ne_nil (sep : Char) : ∀ (l : List Char), splitOnChar sep l ≠ []
  | [] => by simp [splitOnChar]
  | c :: rest => by
    unfold splitOnChar
    split
    · simp
    · split <;> simp

theorem splitSegs_ne_nil (s : String) : splitSegs s ≠ [] := by
  unfold splitSegs
  intro h
  exact splitOnChar_ne_nil '/' s.data (List.map_eq_nil_iff.mp h)

theorem endsMd_real {s : String} (h : strEndsWith s ".md" = true) :
    isRealSeg s = true := by
  have h1 : s ≠ "" := by rintro rfl; exact absurd h (by decide)
  have h2 : s ≠ "." := by rintro rfl; exact absurd h (by decide)
  have h3 : s ≠ ".." := by rintro rfl; exact absurd h (by decide)
  simp [isRealSeg, beq_eq_false_iff_ne.mpr h1, beq_eq_false_iff_ne.mpr h2,
    beq_eq_false_iff_ne.mpr h3]

theorem normStack_snoc (abs : Bool) (p : String) (h1 : ¬p = "") (h2 : ¬p = ".")
    (h3 : ¬p = "..") :
    ∀ (xs : List String) (stack : List String),
      normStack abs stack (xs ++ [p]) = normStack abs stack xs ++ [p]
  | [], stack => by
    simp only [List.nil_append]
    simp [normStack, h1, h2, h3]
  | x :: xs, stack => by
    simp only [List.cons_append]
    unfold normStack
    repeat' split
    all_goals exact normStack_snoc abs p h1 h2 h3 xs _

theorem dropCommon_snd_suffix : ∀ (f t : List String), (dropCommon f t).2 <:+ t
  | [], t => List.suffix_refl t
  | _ :: _, [] => List.nil_suffix
  | a :: as, b :: bs => by
    unfold dropCommon
    split
    · exact (dropCommon_snd_suffix as bs).trans (List.suffix_cons b bs)
    · exact List.suffix_refl (b :: bs)

theorem dropCommon_snd_nil_prefix :
    ∀ (f t : List String), (dropCommon f t).2 = [] → t <+: f
  | [], t => by
    intro h
    simp only [dropCommon] at h
    exact h ▸ List.nil_prefix
  | _ :: _, [] => fun _ => List.nil_prefix
  | a :: as, b :: bs => by
    unfold dropCommon
    split
    · intro h
      rename_i hab
      exact List.cons_prefix_cons.mpr ⟨hab.symm, dropCommon_snd_nil_prefix as bs h⟩
    · intro h
      simp at h

theorem intercalate_getLast :
    ∀ (l : List String) (y : String), l.getLast? = some y →
      ∃ pre : String, intercalateStr "/" l = pre ++ y
  | [], y => by simp
  | [x], y => by
    intro h
    rw [List.getLast?_singleton] at h
    cases h
    exact ⟨"", rfl⟩
  | x :: x' :: t, y => by
    intro h
    rw [List.getLast?_cons_cons] at h
    obtain ⟨pre, hpre⟩ := intercalate_getLast (x' :: t) y h
    refine ⟨x ++ "/" ++ pre, ?_⟩
    show x ++ "/" ++ intercalateStr "/" (x' :: t) = x ++ "/" ++ pre ++ y
    rw [hpre]
    simp [String.append_assoc]

theorem strEndsWith_append (pre : String) {y suf : String}
    (h : strEndsWith y suf = true) : strEndsWith (pre ++ y) suf = true := by
  unfold strEndsWith at h ⊢
  rw [List.isSuffixOf_iff_suffix] at h ⊢
  rw [String.data_append]
  exact h.trans (List.suffix_append pre.data y.data)

/-- If the base directory contains no segment ending in `".md"`, the
relative key computed for a path whose final segment ends in `".md"`
itself ends in `".md"`. -/
theorem pathRelative_end_md (baseDir p : String)
    (hbase : ∀ s ∈ normStack true [] (splitSegs baseDir), strEndsWith s ".md" = false)
    (hmd : strEndsWith (pathBaseName p) ".md" = true) :
    strEndsWith (pathRelative baseDir p) ".md" = true := by
  have hne : splitSegs p ≠ [] := splitSegs_ne_nil p
  have hbn : pathBaseName p = (splitSegs p).getLast hne := by
    unfold pathBaseName
    rw [List.head?_reverse, List.getLast?_eq_getLast _ hne]
    rfl
  rw [hbn] at hmd
  have hreal := endsMd_real hmd
  have hr3 : (¬(splitSegs p).getLast hne = "" ∧ ¬(splitSegs p).getLast hne = ".") ∧
      ¬(splitSegs p).getLast hne = ".." := by
    simpa [isRealSeg, Bool.not_eq_true', beq_eq_false_iff_ne] using hreal
  have ht : normStack true [] (splitSegs p) =
      normStack true [] (splitSegs p).dropLast ++ [(splitSegs p).getLast hne] := by
    conv_lhs => rw [← List.dropLast_append_getLast hne]
    exact normStack_snoc true _ hr3.1.1 hr3.1.2 hr3.2 _ []
  have hTlast : (normStack true [] (splitSegs p)).getLast? =
      some ((splitSegs p).getLast hne) := by
    rw [ht, List.getLast?_append]
    rfl
  have hsuffix := dropCommon_snd_suffix (normStack true [] (splitSegs baseDir))
    (normStack true [] (splitSegs p))
  have htRne : (dropCommon (normStack true [] (splitSegs baseDir))
      (normStack true [] (splitSegs p))).2 ≠ [] := by
    intro hnil
    have hpre := dropCommon_snd_nil_prefix _ _ hnil
    have hmem : (splitSegs p).getLast hne ∈ normStack true [] (splitSegs p) := by
      rw [ht]
      exact List.mem_append.mpr (Or.inr (by simp))
    have := hbase _ (hpre.subset hmem)
    rw [this] at hmd
    exact Bool.false_ne_true hmd
  have htRlast : (dropCommon (normStack true [] (splitSegs baseDir))
      (normStack true [] (splitSegs p))).2.getLast? =
      some ((splitSegs p).getLast hne) := by
    obtain ⟨pre, hpre⟩ := hsuffix
    rw [← hpre, List.getLast?_append] at hTlast
    rw [List.getLast?_eq_getLast _ htRne] at hTlast ⊢
    simp only [Option.or_some] at hTlast
    exact hTlast
  have hrl : ((dropCommon (normStack true [] (splitSegs baseDir))
      (normStack true [] (splitSegs p))).1.map (fun _ => "..") ++
      (dropCommon (normStack true [] (splitSegs baseDir))
        (normStack true [] (splitSegs p))).2).getLast? =
      some ((splitSegs p).getLast hne) := by
    rw [List.getLast?_append, htRlast]
    rfl
  obtain ⟨pre, hpre⟩ := intercalate_getLast _ _ hrl
  have hshow : pathRelative baseDir p =
      intercalateStr "/" ((dropCommon (normStack true [] (splitSegs baseDir))
        (normStack true [] (splitSegs p))).1.map (fun _ => "..") ++
        (dropCommon (normStack true [] (splitSegs baseDir))
          (normStack true [] (splitSegs p))).2) := rfl
  rw [hshow, hpre]
  exact strEndsWith_append pre hmd

/-- Membership in an offset/limit page implies membership in the list. -/
theorem mem_page {l : List α} {off lim : Nat} {x : α}
    (h : x ∈ (l.drop off).take lim) : x ∈ l :=
  List.drop_subset off l (List.take_subset lim _ h)

/-- Every file surfaced by the local backend's `list` has a key ending in
`".md"`, provided no segment of the base directory ends in `".md"`. -/
theorem list_keys_end_md (fs : List FsEntry) (baseDir : String) (opts : ListOptions)
    (hbase : ∀ s ∈ normStack true [] (splitSegs baseDir), strEndsWith s ".md" = false) :
    ∀ f ∈ (LocalStorageBackend.list fs baseDir opts).files,
      strEndsWith f.key ".md" = true := by
  intro f hf
  simp only [LocalStorageBackend.list] at hf
  split at hf
  · exact absurd hf (List.not_mem_nil f)
  have h1 := mem_stableSortBy.mp (mem_page hf)
  simp only [LocalStorageBackend.listFilesRecursive] at h1
  obtain ⟨e, hefil, heq⟩ := List.mem_map.mp h1
  have hp := (List.mem_filter.mp hefil).2
  simp only [Bool.and_eq_true] at hp
  have hmd := hp.2
  rw [← heq]
  exact pathRelative_end_md baseDir e.path hbase hmd

/-! ## Round-trip lemmas for the content stores -/

theorem local_get_put (fs : List FsEntry) (baseDir key content : String) (t : Nat) :
    LocalStorageBackend.get (LocalStorageBackend.put fs baseDir key content t)
      baseDir key = some content := by
  unfold LocalStorageBackend.get LocalStorageBackend.put
  by_cases h : fs.any (fun e => e.path == LocalStorageBackend.getFullPath baseDir key) = true
  · rw [if_pos h,
      @find?_map_ite _ (fun e => e.path == LocalStorageBackend.getFullPath baseDir key)
        (fun e => { e with content := content, mtime := t }) (fun a => rfl) fs]
    obtain ⟨x, hx, hpx⟩ := List.any_eq_true.mp h
    have hsome : (fs.find?
        (fun e => e.path == LocalStorageBackend.getFullPath baseDir key)).isSome = true :=
      List.find?_isSome.mpr ⟨x, hx, hpx⟩
    obtain ⟨e0, he0⟩ := Option.isSome_iff_exists.mp hsome
    rw [he0]
    rfl
  · have hnone : fs.find?
        (fun e => e.path == LocalStorageBackend.getFullPath baseDir key) = none :=
      List.find?_eq_none.mpr (fun x hx hpx => h (by exact List.any_eq_true.mpr ⟨x, hx, hpx⟩))
    rw [if_neg h, List.find?_append, hnone, Option.none_or,
      List.find?_cons_of_pos _ (by simp)]
    rfl

theorem local_exists_put (fs : List FsEntry) (baseDir key content : String) (t : Nat) :
    LocalStorageBackend.existsKey (LocalStorageBackend.put fs baseDir key content t)
      baseDir key = true := by
  have h := local_get_put fs baseDir key content t
  unfold LocalStorageBackend.get at h
  unfold LocalStorageBackend.existsKey
  obtain ⟨e0, he0, -⟩ : ∃ e0, (LocalStorageBackend.put fs baseDir key content t).find?
      (fun e => e.path == LocalStorageBackend.getFullPath baseDir key) = some e0 ∧
      e0.content = content := by
    cases hf : (LocalStorageBackend.put fs baseDir key content t).find?
        (fun e => e.path == LocalStorageBackend.getFullPath baseDir key) with
    | none => rw [hf] at h; exact absurd h (by simp)
    | some e0 =>
      rw [hf] at h
      exact ⟨e0, rfl, by simpa using h⟩
  have hpe := List.find?_some he0
  exact List.any_eq_true.mpr ⟨e0, List.mem_of_find?_eq_some he0, hpe⟩

theorem local_get_del (fs : List FsEntry) (baseDir key : String) :
    LocalStorageBackend.get (LocalStorageBackend.del fs baseDir key).2 baseDir key =
      none := by
  unfold LocalStorageBackend.get LocalStorageBackend.del
  by_cases h : fs.any (fun e => e.path == LocalStorageBackend.getFullPath baseDir key) = true
  · rw [if_pos h]
    simp only [Option.map_eq_none', List.find?_eq_none]
    intro x hx
    have := (List.mem_filter.mp hx).2
    simpa using this
  · rw [if_neg h]
    simp only [Option.map_eq_none', List.find?_eq_none]
    intro x hx hpx
    exact h (List.any_eq_true.mpr ⟨x, hx, hpx⟩)

theorem local_del_missing (fs : List FsEntry) (baseDir key : String)
    (h : LocalStorageBackend.existsKey fs baseDir key = false) :
    LocalStorageBackend.del fs baseDir key = (false, fs) := by
  unfold LocalStorageBackend.existsKey at h
  unfold LocalStorageBackend.del
  rw [if_neg (by simp [h])]

theorem s3_get_put (bucket : List S3Object) (cfgPfx key content : String) :
    S3StorageBackend.get (S3StorageBackend.put bucket cfgPfx key content)
      cfgPfx key = some content := by
  unfold S3StorageBackend.get S3StorageBackend.put
  by_cases h : bucket.any (fun o => o.key == S3StorageBackend.getFullKey cfgPfx key) = true
  · rw [if_pos h,
      @find?_map_ite _ (fun o => o.key == S3StorageBackend.getFullKey cfgPfx key)
        (fun o => { o with body := content }) (fun a => rfl) bucket]
    obtain ⟨x, hx, hpx⟩ := List.any_eq_true.mp h
    have hsome : (bucket.find?
        (fun o => o.key == S3StorageBackend.getFullKey cfgPfx key)).isSome = true :=
      List.find?_isSome.mpr ⟨x, hx, hpx⟩
    obtain ⟨o0, ho0⟩ := Option.isSome_iff_exists.mp hsome
    rw [ho0]
    rfl
  · have hnone : bucket.find?
        (fun o => o.key == S3StorageBackend.getFullKey cfgPfx key) = none :=
      List.find?_eq_none.mpr (fun x hx hpx => h (by exact List.any_eq_true.mpr ⟨x, hx, hpx⟩))
    rw [if_neg h, List.find?_append, hnone, Option.none_or,
      List.find?_cons_of_pos _ (by simp)]
    rfl

theorem s3_exists_put (bucket : List S3Object) (cfgPfx key content : String) :
    S3StorageBackend.existsKey (S3StorageBackend.put bucket cfgPfx key content)
      cfgPfx key = true := by
  have h := s3_get_put bucket cfgPfx key content
  unfold S3StorageBackend.get at h
  unfold S3StorageBackend.existsKey
  obtain ⟨o0, ho0, -⟩ : ∃ o0, (S3StorageBackend.put bucket cfgPfx key content).find?
      (fun o => o.key == S3StorageBackend.getFullKey cfgPfx key) = some o0 ∧
      o0.body = content := by
    cases hf : (S3StorageBackend.put bucket cfgPfx key content).find?
        (fun o => o.key == S3StorageBackend.getFullKey cfgPfx key) with
    | none => rw [hf] at h; exact absurd h (by simp)
    | some o0 =>
      rw [hf] at h
      exact ⟨o0, rfl, by simpa using h⟩
  have hpo := List.find?_some ho0
  exact List.any_eq_true.mpr ⟨o0, List.mem_of_find?_eq_some ho0, hpo⟩

theorem s3_get_del (bucket : List S3Object) (cfgPfx key : String) :
    S3StorageBackend.get (S3StorageBackend.del bucket cfgPfx key).2 cfgPfx key =
      none := by
  unfold S3StorageBackend.get S3StorageBackend.del
  by_cases h : S3StorageBackend.existsKey bucket cfgPfx key = true
  · rw [if_pos h]
    simp only [Option.map_eq_none', List.find?_eq_none]
    intro x hx
    have := (List.mem_filter.mp hx).2
    simpa using this
  · rw [if_neg h]
    unfold S3StorageBackend.existsKey at h
    simp only [Option.map_eq_none', List.find?_eq_none]
    intro x hx hpx
    exact h (List.any_eq_true.mpr ⟨x, hx, hpx⟩)

theorem s3_del_missing (bucket : List S3Object) (cfgPfx key : String)
    (h : S3StorageBackend.existsKey bucket cfgPfx key = false) :
    S3StorageBackend.del bucket cfgPfx key = (false, bucket) := by
  unfold S3StorageBackend.del
  rw [if_neg (by simp [h])]

/-! ## Claim theorems -/

/-- C1 (amended): the SQLite and Postgres backends reject a `create`
whose `storageKey` already exists — their UNIQUE constraints make the
insert throw a uniqueness-violation error (the spec's `ConflictError`) —
leaving the table unchanged; the DynamoDB backend performs no
uniqueness check at all: its `create` (with a fresh generated id)
always succeeds, appends a second item carrying the duplicate
`storageKey`, and returns its metadata. -/
theorem claim_C1 :
    (∀ (rows : List StoryRow) (input : CreateStoryInput) (id now : String),
      (∃ r ∈ rows, r.storage_key = input.storageKey) →
      SQLiteIndexBackend.create rows input id now = (.conflict, rows)) ∧
    (∀ (rows : List PgRow) (input : CreateStoryInput) (id now : String),
      (∃ r ∈ rows, r.storage_key = input.storageKey) →
      PostgresIndexBackend.create rows input id now = (.uniqueViolation, rows)) ∧
    (∀ (table : List StoryItem) (input : CreateStoryInput) (id now : String),
      (∀ x ∈ table, x.id ≠ id) →
      DynamoDBIndexBackend.create table input id now =
        (DynamoDBIndexBackend.itemToMetadata
          (DynamoDBIndexBackend.createItem input id now),
          table ++ [DynamoDBIndexBackend.createItem input id now]) ∧
      ((table ++ [DynamoDBIndexBackend.createItem input id now]).filter
          (fun x => x.storageKey == input.storageKey)).length =
        (table.filter (fun x => x.storageKey == input.storageKey)).length + 1) := by
  refine ⟨?_, ?_, ?_⟩
  · intro rows input id now ⟨r, hr, hsk⟩
    unfold SQLiteIndexBackend.create
    rw [if_pos (List.any_eq_true.mpr ⟨r, hr, by simp [hsk]⟩)]
  · intro rows input id now ⟨r, hr, hsk⟩
    unfold PostgresIndexBackend.create
    rw [if_pos (List.any_eq_true.mpr ⟨r, hr, by simp [hsk]⟩)]
  · intro table input id now hfresh
    have hany : table.any (fun x =>
        x.id == (DynamoDBIndexBackend.createItem input id now).id) = false := by
      rw [List.any_eq_false]
      intro x hx
      simpa using hfresh x hx
    have hput : DynamoDBIndexBackend.putItem table
        (DynamoDBIndexBackend.createItem input id now) =
        table ++ [DynamoDBIndexBackend.createItem input id now] := by
      unfold DynamoDBIndexBackend.putItem
      rw [hany]
      simp
    refine ⟨?_, ?_⟩
    · show (DynamoDBIndexBackend.itemToMetadata _,
        DynamoDBIndexBackend.putItem table _) = _
      rw [hput]
    · rw [List.filter_append, List.length_append]
      simp [DynamoDBIndexBackend.createItem]

/-- C1 counterexample: on a DynamoDB table already holding a record with
`storageKey "k13"`, a second `create` with the same `storageKey` (and a
fresh id) does not fail: it returns the new record's metadata and leaves
the table with two records carrying `storageKey "k13"` — a silent
success producing a duplicate, contradicting the claim that every
backend fails with a `ConflictError`. -/
theorem claim_C1_counterexample :
    ((DynamoDBIndexBackend.create ddbItems3 (fxInput "dup" "k13") "idX"
        "2024-02-01T00:00:00.000Z").2.filter
      (fun x => x.storageKey == "k13")).length = 2 ∧
    (DynamoDBIndexBackend.create ddbItems3 (fxInput "dup" "k13") "idX"
        "2024-02-01T00:00:00.000Z").1.storageKey = "k13" := by
  decide

/-- C1 witness: the amended claim instantiated on the three-record
fixtures. -/
theorem claim_C1_witness :
    ((∃ r ∈ sqlRows3, r.storage_key = (fxInput "dup" "k13").storageKey) ∧
      SQLiteIndexBackend.create sqlRows3 (fxInput "dup" "k13") "idX"
        "2024-02-01T00:00:00.000Z" = (.conflict, sqlRows3)) ∧
    ((∃ r ∈ pgRows3, r.storage_key = (fxInput "dup" "k13").storageKey) ∧
      PostgresIndexBackend.create pgRows3 (fxInput "dup" "k13") "idX"
        "2024-02-01T00:00:00.000Z" = (.uniqueViolation, pgRows3)) ∧
    ((∀ x ∈ ddbItems3, x.id ≠ "idX") ∧
      ((ddbItems3 ++ [DynamoDBIndexBackend.createItem (fxInput "dup" "k13") "idX"
          "2024-02-01T00:00:00.000Z"]).filter
        (fun x => x.storageKey == (fxInput "dup" "k13").storageKey)).length =
      (ddbItems3.filter
        (fun x => x.storageKey == (fxInput "dup" "k13").storageKey)).length + 1) :=
  ⟨⟨by decide, claim_C1.1 sqlRows3 (fxInput "dup" "k13") "idX"
      "2024-02-01T00:00:00.000Z" (by decide)⟩,
   ⟨by decide, claim_C1.2.1 pgRows3 (fxInput "dup" "k13") "idX"
      "2024-02-01T00:00:00.000Z" (by decide)⟩,
   ⟨by decide, (claim_C1.2.2 ddbItems3 (fxInput "dup" "k13") "idX"
      "2024-02-01T00:00:00.000Z" (by decide)).2⟩⟩

/-- C2 (amended): for the SQLite and Postgres backends, `query` with
`sortBy`/`sortOrder`/`limit`
omitted sorts by `publishedAt` descending, takes 20 records after
skipping the given offset, reports `total` as the count of all records
matching the filters, and reports `hasMore = offset + returned < total`.
The DynamoDB backend never reads the offset option, and on the scan path
its `total` is the number of items scanned (at most twice the limit,
counted before the in-memory tag filter) while its `hasMore` reports
scan truncation instead of the offset formula. -/
theorem claim_C2 :
    (∀ (rows : List StoryRow) (o : QueryOptions),
      o.sortBy = none → o.sortOrder = none → o.limit = none →
      (SQLiteIndexBackend.query rows o).total =
        (rows.filter (SQLiteIndexBackend.queryWhere o)).length ∧
      (SQLiteIndexBackend.query rows o).stories =
        (((stableSortBy (fun a b => strLtB b.published_at a.published_at)
            (rows.filter (SQLiteIndexBackend.queryWhere o))).drop
            (o.offset.getD 0)).take 20).map SQLiteIndexBackend.rowToMetadata ∧
      ((SQLiteIndexBackend.query rows o).hasMore = true ↔
        o.offset.getD 0 + (SQLiteIndexBackend.query rows o).stories.length <
          (SQLiteIndexBackend.query rows o).total)) ∧
    (∀ (rows : List PgRow) (o : QueryOptions),
      o.sortBy = none → o.sortOrder = none → o.limit = none →
      (PostgresIndexBackend.query rows o).total =
        (rows.filter (PostgresIndexBackend.queryWhere o)).length ∧
      (PostgresIndexBackend.query rows o).stories =
        (((stableSortBy (fun a b => strLtB b.published_at a.published_at)
            (rows.filter (PostgresIndexBackend.queryWhere o))).drop
            (o.offset.getD 0)).take 20).map PostgresIndexBackend.rowToMetadata ∧
      ((PostgresIndexBackend.query rows o).hasMore = true ↔
        o.offset.getD 0 + (PostgresIndexBackend.query rows o).stories.length <
          (PostgresIndexBackend.query rows o).total)) ∧
    (∀ (table : List StoryItem) (o : QueryOptions) (x : Option Nat),
      DynamoDBIndexBackend.query table { o with offset := x } =
        DynamoDBIndexBackend.query table o) ∧
    (∀ (table : List StoryItem) (o : QueryOptions),
      truthyStr o.authorDid = none →
      (DynamoDBIndexBackend.query table o).total =
        (table.take (o.limit.getD 20 * 2)).length ∧
      ((DynamoDBIndexBackend.query table o).hasMore = true ↔
        o.limit.getD 20 * 2 < table.length)) := by
  refine ⟨?_, ?_, ?_, ?_⟩
  · intro rows o h1 h2 h3
    obtain ⟨oa, ot, osb, oso, ol, oo⟩ := o
    simp only at h1 h2 h3
    subst h1; subst h2; subst h3
    refine ⟨rfl, rfl, ?_⟩
    simp [SQLiteIndexBackend.query]
  · intro rows o h1 h2 h3
    obtain ⟨oa, ot, osb, oso, ol, oo⟩ := o
    simp only at h1 h2 h3
    subst h1; subst h2; subst h3
    refine ⟨rfl, rfl, ?_⟩
    simp [PostgresIndexBackend.query]
  · intro table o x
    rfl
  · intro table o hA
    unfold DynamoDBIndexBackend.query
    rw [hA]
    refine ⟨rfl, ?_⟩
    simp [DynamoDBIndexBackend.scanStories, DynamoDBIndexBackend.scan]

/-- C2 counterexample: on the three-record DynamoDB fixture,
`query({limit: 2})` returns 2 of 3 matching records yet reports
`hasMore = false` (the claim's formula demands `0 + 2 < 3`, i.e. true),
and `query({offset: 2, limit: 2})` returns the same first page
`[id15, id14]` instead of applying the offset. -/
theorem claim_C2_counterexample :
    ((DynamoDBIndexBackend.query ddbItems3 { noOptions with limit := some 2 }).hasMore
        = false ∧
      (DynamoDBIndexBackend.query ddbItems3
        { noOptions with limit := some 2 }).stories.length = 2 ∧
      (DynamoDBIndexBackend.query ddbItems3
        { noOptions with limit := some 2 }).total = 3) ∧
    (DynamoDBIndexBackend.query ddbItems3
        { noOptions with offset := some 2, limit := some 2 }).stories.map
      (fun s => s.id) = ["id15", "id14"] := by
  decide

/-- C2 witness: the amended claim instantiated on concrete inputs. -/
theorem claim_C2_witness :
    ((SQLiteIndexBackend.query sqlRows3
        { noOptions with offset := some 1 }).stories =
      (((stableSortBy (fun a b => strLtB b.published_at a.published_at)
          (sqlRows3.filter
            (SQLiteIndexBackend.queryWhere { noOptions with offset := some 1 }))).drop
          1).take 20).map SQLiteIndexBackend.rowToMetadata) ∧
    ((PostgresIndexBackend.query pgRows3 noOptions).total =
      (pgRows3.filter (PostgresIndexBackend.queryWhere noOptions)).length) ∧
    (DynamoDBIndexBackend.query ddbItems3
        { noOptions with offset := some 5 } =
      DynamoDBIndexBackend.query ddbItems3 noOptions) ∧
    (truthyStr (noOptions).authorDid = none ∧
      (DynamoDBIndexBackend.query ddbItems3 noOptions).total =
        (ddbItems3.take 40).length) :=
  ⟨(claim_C2.1 sqlRows3 { noOptions with offset := some 1 } rfl rfl rfl).2.1,
   (claim_C2.2.1 pgRows3 noOptions rfl rfl rfl).1,
   claim_C2.2.2.1 ddbItems3 noOptions (some 5),
   ⟨rfl, (claim_C2.2.2.2 ddbItems3 noOptions rfl).1⟩⟩

/-- C3 (amended): for the SQLite and Postgres backends, concatenating
the pages
`offset = k·L, limit = L` over `k = 0, …, N−1` with `N·L` at least the
matching count reproduces exactly the single query with no offset and
any limit at least the matching count, and the spec's concrete
three-record scenario holds on them.  The DynamoDB backend fails both
the concrete scenario and page concatenation: it ignores the offset, so
the follow-up page repeats the first one. -/
theorem claim_C3 :
    (∀ (rows : List StoryRow) (o : QueryOptions) (L N M : Nat),
      (rows.filter (SQLiteIndexBackend.queryWhere o)).length ≤ N * L →
      (rows.filter (SQLiteIndexBackend.queryWhere o)).length ≤ M →
      (List.range N).flatMap (fun k =>
        (SQLiteIndexBackend.query rows
          { o with offset := some (k * L), limit := some L }).stories) =
      (SQLiteIndexBackend.query rows
        { o with offset := none, limit := some M }).stories) ∧
    (∀ (rows : List PgRow) (o : QueryOptions) (L N M : Nat),
      (rows.filter (PostgresIndexBackend.queryWhere o)).length ≤ N * L →
      (rows.filter (PostgresIndexBackend.queryWhere o)).length ≤ M →
      (List.range N).flatMap (fun k =>
        (PostgresIndexBackend.query rows
          { o with offset := some (k * L), limit := some L }).stories) =
      (PostgresIndexBackend.query rows
        { o with offset := none, limit := some M }).stories) ∧
    ((SQLiteIndexBackend.query sqlRows3
        descOpts2).stories.map (fun s => s.id) = ["id15", "id14"] ∧
      (SQLiteIndexBackend.query sqlRows3
        descOpts2).hasMore = true ∧
      (SQLiteIndexBackend.query sqlRows3
        descOpts2).total = 3 ∧
      (SQLiteIndexBackend.query sqlRows3
        descOpts2off).stories.map (fun s => s.id) =
        ["id13"] ∧
      (SQLiteIndexBackend.query sqlRows3
        descOpts2off).hasMore = false) ∧
    ((PostgresIndexBackend.query pgRows3
        descOpts2).stories.map (fun s => s.id) = ["id15", "id14"] ∧
      (PostgresIndexBackend.query pgRows3
        descOpts2off).stories.map (fun s => s.id) =
        ["id13"]) := by
  refine ⟨?_, ?_, by decide, by decide⟩
  · intro rows o L N M hN hM
    show (List.range N).flatMap (fun k =>
        (((stableSortBy (SQLiteIndexBackend.queryLt o)
          (rows.filter (SQLiteIndexBackend.queryWhere o))).drop (k * L)).take
          L).map SQLiteIndexBackend.rowToMetadata) =
      (((stableSortBy (SQLiteIndexBackend.queryLt o)
        (rows.filter (SQLiteIndexBackend.queryWhere o))).drop 0).take M).map
        SQLiteIndexBackend.rowToMetadata
    rw [← List.map_flatMap, chunks_flatMap, List.drop_zero,
      List.take_of_length_le (by rw [length_stableSortBy]; exact hN),
      List.take_of_length_le (by rw [length_stableSortBy]; exact hM)]
  · intro rows o L N M hN hM
    show (List.range N).flatMap (fun k =>
        (((stableSortBy (PostgresIndexBackend.queryLt o)
          (rows.filter (PostgresIndexBackend.queryWhere o))).drop (k * L)).take
          L).map PostgresIndexBackend.rowToMetadata) =
      (((stableSortBy (PostgresIndexBackend.queryLt o)
        (rows.filter (PostgresIndexBackend.queryWhere o))).drop 0).take M).map
        PostgresIndexBackend.rowToMetadata
    rw [← List.map_flatMap, chunks_flatMap, List.drop_zero,
      List.take_of_length_le (by rw [length_stableSortBy]; exact hN),
      List.take_of_length_le (by rw [length_stableSortBy]; exact hM)]

/-- C3 counterexample: on the three-record DynamoDB fixture, the spec's
scenario fails — the first page reports `hasMore = false` instead of
true, and the follow-up page with offset 2 returns `[id15, id14]` again
instead of `[id13]`, so concatenating pages repeats records. -/
theorem claim_C3_counterexample :
    (DynamoDBIndexBackend.query ddbItems3
        descOpts2).hasMore = false ∧
    (DynamoDBIndexBackend.query ddbItems3
        descOpts2off).stories.map (fun s => s.id) =
      ["id15", "id14"] := by
  decide

/-- C3 witness: page concatenation instantiated on the three-record
SQLite fixture with L = 2, N = 2, M = 3. -/
theorem claim_C3_witness :
    ((sqlRows3.filter (SQLiteIndexBackend.queryWhere noOptions)).length ≤ 2 * 2 ∧
      (sqlRows3.filter (SQLiteIndexBackend.queryWhere noOptions)).length ≤ 3) ∧
    (List.range 2).flatMap (fun k =>
        (SQLiteIndexBackend.query sqlRows3
          { noOptions with offset := some (k * 2), limit := some 2 }).stories) =
      (SQLiteIndexBackend.query sqlRows3
        { noOptions with offset := none, limit := some 3 }).stories :=
  ⟨⟨by decide, by decide⟩,
   claim_C3.1 sqlRows3 noOptions 2 2 3 (by decide) (by decide)⟩

/-- The DynamoDB in-memory tag filter is exact element membership. -/
theorem tagsFilter_true {ts : List String} {tg : Option (List String)}
    (h : DynamoDBIndexBackend.tagsFilter ts tg = true) :
    ∀ tag ∈ ts, tag ∈ tg.getD [] := by
  intro tag htag
  have hx := List.all_eq_true.mp h tag htag
  cases tg with
  | none => simp at hx
  | some l =>
    simp only [Option.getD_some]
    exact List.elem_iff.mp (by simpa using hx)

/-- C4 (amended): the DynamoDB backend and the Postgres backend filter
tags by exact element membership with AND semantics — DynamoDB through
the in-memory `every`/`includes` test, Postgres through `tags @> $n`
array containment — so every story in a returned page contains every
requested tag as an exact element of its tag set, and the requested tag
`"fi"` matches nothing in records tagged `["fiction","family"]`.  The
SQLite backend instead tests `tags LIKE '%"tag"%'` on the serialized
tag text, which agrees on the spec's concrete scenario (a record tagged
`["fiction","family"]` matches `["fiction"]` and `["fiction","family"]`
but not `["scifi"]`, identically across backends) but treats `%`/`_`
in a requested tag as wildcards and folds ASCII case, so exact-element
semantics and cross-backend identity fail on SQLite. -/
theorem claim_C4 :
    (∀ (table : List StoryItem) (o : QueryOptions) (ts : List String),
      o.tags = some ts → ts ≠ [] →
      ∀ m ∈ (DynamoDBIndexBackend.query table o).stories,
        ∀ tag ∈ ts, tag ∈ m.tags.getD []) ∧
    (∀ (rows : List PgRow) (o : QueryOptions) (ts : List String),
      o.tags = some ts → ts ≠ [] →
      ∀ m ∈ (PostgresIndexBackend.query rows o).stories,
        ∀ tag ∈ ts, tag ∈ m.tags.getD []) ∧
    ((SQLiteIndexBackend.query ghostRows
        { noOptions with tags := some ["fiction"] }).stories.map (fun s => s.id) =
      ["idg"] ∧
      (SQLiteIndexBackend.query ghostRows
        { noOptions with tags := some ["fiction", "family"] }).stories.map
        (fun s => s.id) = ["idg"] ∧
      (SQLiteIndexBackend.query ghostRows
        { noOptions with tags := some ["scifi"] }).stories = [] ∧
      (DynamoDBIndexBackend.query ghostItems
        { noOptions with tags := some ["fiction"] }).stories.map (fun s => s.id) =
      ["idg"] ∧
      (DynamoDBIndexBackend.query ghostItems
        { noOptions with tags := some ["fiction", "family"] }).stories.map
        (fun s => s.id) = ["idg"] ∧
      (DynamoDBIndexBackend.query ghostItems
        { noOptions with tags := some ["scifi"] }).stories = []) ∧
    ((PostgresIndexBackend.query pgRows3
        { noOptions with tags := some ["fiction"] }).total = 3 ∧
      (PostgresIndexBackend.query pgRows3
        { noOptions with tags := some ["fiction", "family"] }).total = 3 ∧
      (PostgresIndexBackend.query pgRows3
        { noOptions with tags := some ["scifi"] }).total = 0 ∧
      (PostgresIndexBackend.query pgRows3
        { noOptions with tags := some ["fi"] }).total = 0) := by
  refine ⟨?_, ?_, by decide, by decide⟩
  · intro table o ts htags hne m hm tag htag
    unfold DynamoDBIndexBackend.query at hm
    cases hA : truthyStr o.authorDid with
    | none =>
      rw [hA] at hm
      simp only [DynamoDBIndexBackend.scanStories, htags] at hm
      rw [if_pos (by simpa using List.length_pos.mpr hne)] at hm
      obtain ⟨x, hx, hxm⟩ := List.mem_map.mp hm
      have hx2 := mem_stableSortBy.mp (List.take_subset _ _ hx)
      have hfil := (List.mem_filter.mp hx2).2
      rw [← hxm]
      exact tagsFilter_true hfil tag htag
    | some a =>
      rw [hA] at hm
      simp only [DynamoDBIndexBackend.queryByAuthor, htags] at hm
      have hm2 := List.take_subset _ _ hm
      have hfil := (List.mem_filter.mp hm2).2
      exact tagsFilter_true hfil tag htag
  · intro rows o ts htags hne m hm tag htag
    simp only [PostgresIndexBackend.query] at hm
    obtain ⟨x, hx, hxm⟩ := List.mem_map.mp hm
    have hx2 := mem_stableSortBy.mp (mem_page hx)
    have hfil := (List.mem_filter.mp hx2).2
    unfold PostgresIndexBackend.queryWhere at hfil
    simp only [Bool.and_eq_true] at hfil
    have h2 := hfil.2
    simp only [htags] at h2
    rw [if_pos (List.length_pos.mpr hne)] at h2
    rw [← hxm]
    show tag ∈ (PostgresIndexBackend.rowToMetadata x).tags.getD []
    cases hxt : x.tags with
    | none =>
      rw [hxt] at h2
      exact absurd h2 (by simp)
    | some l =>
      rw [hxt] at h2
      have hall := List.all_eq_true.mp h2 tag htag
      have : (PostgresIndexBackend.rowToMetadata x).tags = some l := by
        rw [← hxt]
        rfl
      rw [this, Option.getD_some]
      exact List.elem_iff.mp (by simpa using hall)

/-- C4 counterexample: the SQLite `LIKE`-based tag filter matches the
requested tag `"f_ction"` against the record tagged
`["fiction","family"]` — `_` acts as a wildcard — so the query returns a
record whose tag set does not contain the requested tag, while DynamoDB
returns nothing for the same request; the claim's exact-element
semantics and cross-backend agreement both fail. -/
theorem claim_C4_counterexample :
    (SQLiteIndexBackend.query ghostRows
        { noOptions with tags := some ["f_ction"] }).stories.map (fun s => s.tags) =
      [some ["fiction", "family"]] ∧
    ("f_ction" ∈ (["fiction", "family"] : List String) → False) ∧
    (DynamoDBIndexBackend.query ghostItems
        { noOptions with tags := some ["f_ction"] }).stories = [] := by
  decide

/-- C4 witness: the DynamoDB and Postgres clauses instantiated on the
concrete fixtures. -/
theorem claim_C4_witness :
    (({ noOptions with tags := some ["fiction"] } : QueryOptions).tags =
      some ["fiction"] ∧ (["fiction"] : List String) ≠ []) ∧
    (∀ m ∈ (DynamoDBIndexBackend.query ghostItems
        { noOptions with tags := some ["fiction"] }).stories,
      ∀ tag ∈ ["fiction"], tag ∈ m.tags.getD []) ∧
    (∀ m ∈ (PostgresIndexBackend.query pgRows3
        { noOptions with tags := some ["fiction"] }).stories,
      ∀ tag ∈ ["fiction"], tag ∈ m.tags.getD []) :=
  ⟨⟨rfl, by decide⟩,
   claim_C4.1 ghostItems { noOptions with tags := some ["fiction"] }
     ["fiction"] rfl (by decide),
   claim_C4.2.1 pgRows3 { noOptions with tags := some ["fiction"] }
     ["fiction"] rfl (by decide)⟩

/-- C5 (amended): for query strings free of the SQL `LIKE`
metacharacters `%` and `_` (and over the modelled ASCII case folding),
every backend's `search` returns exactly the records whose title or
excerpt contains the query as a case-insensitive substring, AND-combined
with the truthy `authorDid` filter, sorted by publishedAt descending
with the `query` pagination contract (`idealSearch`); in particular the
backends agree whenever they hold the same records, and the record
titled "Digital Ghosts" is returned for "ghost", "GHOST" and "Ghost"
identically on SQLite and DynamoDB.  For queries containing `%` or `_`
the SQLite/Postgres `LIKE` semantics diverge from substring
containment. -/
theorem claim_C5 :
    (∀ (rows : List StoryRow) (o : SearchOptions), noWild o.query = true →
      SQLiteIndexBackend.search rows o =
        idealSearch (rows.map SQLiteIndexBackend.rowToMetadata) o) ∧
    (∀ (rows : List PgRow) (o : SearchOptions), noWild o.query = true →
      PostgresIndexBackend.search rows o =
        idealSearch (rows.map PostgresIndexBackend.rowToMetadata) o) ∧
    (∀ (table : List StoryItem) (o : SearchOptions),
      DynamoDBIndexBackend.search table o =
        idealSearch (table.map DynamoDBIndexBackend.itemToMetadata) o) ∧
    (∀ (rows : List StoryRow) (table : List StoryItem) (o : SearchOptions),
      noWild o.query = true →
      rows.map SQLiteIndexBackend.rowToMetadata =
        table.map DynamoDBIndexBackend.itemToMetadata →
      SQLiteIndexBackend.search rows o = DynamoDBIndexBackend.search table o) ∧
    (∀ o ∈ [searchOnly "ghost", searchOnly "GHOST", searchOnly "Ghost"],
      (SQLiteIndexBackend.search ghostRows o).stories.map (fun s => s.id) =
        ["idg"] ∧
      DynamoDBIndexBackend.search ghostItems o =
        SQLiteIndexBackend.search ghostRows o) := by
  refine ⟨sqlite_search_spec, pg_search_spec, dynamo_search_spec, ?_, by decide⟩
  intro rows table o hq hview
  rw [sqlite_search_spec rows o hq, dynamo_search_spec table o, hview]

/-- C5 counterexample: the search query `"x_z"` is not a substring of
the title `"xyz"`, yet the SQLite backend returns that record (the `_`
of the `LIKE` pattern matches any character), while DynamoDB's
substring test returns nothing — the claim's substring semantics and
cross-backend agreement both fail for this query. -/
theorem claim_C5_counterexample :
    (SQLiteIndexBackend.search xyzRows (searchOnly "x_z")).stories.map
      (fun s => s.id) = ["idx"] ∧
    ciContains "x_z" "xyz" = false ∧
    (DynamoDBIndexBackend.search xyzItems (searchOnly "x_z")).stories = [] := by
  decide

/-- C5 witness: the refinement instantiated on the Digital Ghosts
fixtures with the query "GHOST". -/
theorem claim_C5_witness :
    (noWild (searchOnly "GHOST").query = true ∧
      ghostRows.map SQLiteIndexBackend.rowToMetadata =
        ghostItems.map DynamoDBIndexBackend.itemToMetadata) ∧
    SQLiteIndexBackend.search ghostRows (searchOnly "GHOST") =
      DynamoDBIndexBackend.search ghostItems (searchOnly "GHOST") :=
  ⟨⟨by decide, by decide⟩,
   (claim_C5.2.2.2.1 ghostRows ghostItems (searchOnly "GHOST") (by decide)
     (by decide)).symm⟩

/-- SQLite `update` on an existing id with at least one present field:
the returned record is the stored row after the built `SET` clauses. -/
theorem sqlite_update_found (rows : List StoryRow) (id : String)
    (input : UpdateStoryInput) (now : String) (before : StoryMetadata)
    (hget : SQLiteIndexBackend.get rows id = some before)
    (hupd : SQLiteIndexBackend.hasUpdates input = true) :
    ∃ after, (SQLiteIndexBackend.update rows id input now).1 = some after ∧
      updateFrame before after input now := by
  have hget0 := hget
  unfold SQLiteIndexBackend.get at hget
  cases hf : rows.find? (fun r => r.id == id) with
  | none => rw [hf] at hget; simp at hget
  | some r0 =>
    rw [hf] at hget
    have hb : SQLiteIndexBackend.rowToMetadata r0 = before := by simpa using hget
    refine ⟨SQLiteIndexBackend.rowToMetadata
      (SQLiteIndexBackend.applyUpdate input now r0), ?_, ?_⟩
    · simp only [SQLiteIndexBackend.update, hget0, hupd, if_true]
      unfold SQLiteIndexBackend.get
      rw [@find?_map_ite _ (fun r => r.id == id)
        (SQLiteIndexBackend.applyUpdate input now) (fun a => rfl) rows, hf]
      rfl
    · rw [← hb]
      refine ⟨rfl, rfl, rfl, rfl, rfl, rfl, ?_, ?_, ?_, ?_, ?_, ?_, ?_, rfl, ?_⟩
      · intro h
        simp [SQLiteIndexBackend.applyUpdate, SQLiteIndexBackend.rowToMetadata, h]
      · intro t h
        simp [SQLiteIndexBackend.applyUpdate, SQLiteIndexBackend.rowToMetadata, h]
      · intro h
        simp [SQLiteIndexBackend.applyUpdate, SQLiteIndexBackend.rowToMetadata, h]
      · intro e h
        simp [SQLiteIndexBackend.applyUpdate, SQLiteIndexBackend.rowToMetadata, h]
      · intro h
        simp [SQLiteIndexBackend.applyUpdate, SQLiteIndexBackend.rowToMetadata, h]
      · intro h
        simp [SQLiteIndexBackend.applyUpdate, SQLiteIndexBackend.rowToMetadata, h]
      · intro w h
        simp [SQLiteIndexBackend.applyUpdate, SQLiteIndexBackend.rowToMetadata, h]
      · intro h
        exact h

/-- DynamoDB `update` on an existing id with at least one present field. -/
theorem dynamo_update_found (table : List StoryItem) (id : String)
    (input : UpdateStoryInput) (now : String) (before : StoryMetadata)
    (hget : DynamoDBIndexBackend.get table id = some before)
    (hupd : SQLiteIndexBackend.hasUpdates input = true) :
    ∃ after, (DynamoDBIndexBackend.update table id input now).1 = some after ∧
      updateFrame before after input now := by
  have hget0 := hget
  unfold DynamoDBIndexBackend.get at hget
  cases hf : table.find? (fun x => x.id == id) with
  | none => rw [hf] at hget; simp at hget
  | some x0 =>
    rw [hf] at hget
    have hb : DynamoDBIndexBackend.itemToMetadata x0 = before := by simpa using hget
    refine ⟨DynamoDBIndexBackend.itemToMetadata
      (DynamoDBIndexBackend.applyUpdate input now x0), ?_, ?_⟩
    · simp only [DynamoDBIndexBackend.update, hget0, hupd, if_true]
      unfold DynamoDBIndexBackend.get
      rw [@find?_map_ite _ (fun x => x.id == id)
        (DynamoDBIndexBackend.applyUpdate input now) (fun a => rfl) table, hf]
      rfl
    · rw [← hb]
      refine ⟨rfl, rfl, rfl, rfl, rfl, rfl, ?_, ?_, ?_, ?_, ?_, ?_, ?_, rfl, ?_⟩
      · intro h
        simp [DynamoDBIndexBackend.applyUpdate, DynamoDBIndexBackend.itemToMetadata, h]
      · intro t h
        simp [DynamoDBIndexBackend.applyUpdate, DynamoDBIndexBackend.itemToMetadata, h]
      · intro h
        simp [DynamoDBIndexBackend.applyUpdate, DynamoDBIndexBackend.itemToMetadata, h]
      · intro e h
        simp [DynamoDBIndexBackend.applyUpdate, DynamoDBIndexBackend.itemToMetadata, h]
      · intro h
        simp [DynamoDBIndexBackend.applyUpdate, DynamoDBIndexBackend.itemToMetadata, h]
      · intro h
        simp [DynamoDBIndexBackend.applyUpdate, DynamoDBIndexBackend.itemToMetadata, h]
      · intro w h
        simp [DynamoDBIndexBackend.applyUpdate, DynamoDBIndexBackend.itemToMetadata, h]
      · intro h
        exact h

/-- Postgres `update` on an existing id with at least one present
field: the `UPDATE … RETURNING *` row is the stored row after the
built `SET` clauses. -/
theorem pg_update_found (rows : List PgRow) (id : String)
    (input : UpdateStoryInput) (now : String) (before : StoryMetadata)
    (hget : PostgresIndexBackend.get rows id = some before)
    (hupd : PostgresIndexBackend.hasUpdates input = true) :
    ∃ after, (PostgresIndexBackend.update rows id input now).1 = some after ∧
      updateFrame before after input now := by
  unfold PostgresIndexBackend.get at hget
  cases hf : rows.find? (fun r => r.id == id) with
  | none => rw [hf] at hget; simp at hget
  | some r0 =>
    rw [hf] at hget
    have hb : PostgresIndexBackend.rowToMetadata r0 = before := by simpa using hget
    refine ⟨PostgresIndexBackend.rowToMetadata
      (PostgresIndexBackend.applyUpdate input now r0), ?_, ?_⟩
    · simp only [PostgresIndexBackend.update, hupd, if_true]
      rw [@find?_map_ite _ (fun r => r.id == id)
        (PostgresIndexBackend.applyUpdate input now) (fun a => rfl) rows, hf]
      rfl
    · rw [← hb]
      refine ⟨rfl, rfl, rfl, rfl, rfl, rfl, ?_, ?_, ?_, ?_, ?_, ?_, ?_, rfl, ?_⟩
      · intro h
        simp [PostgresIndexBackend.applyUpdate, PostgresIndexBackend.rowToMetadata, h]
      · intro t h
        simp [PostgresIndexBackend.applyUpdate, PostgresIndexBackend.rowToMetadata, h]
      · intro h
        simp [PostgresIndexBackend.applyUpdate, PostgresIndexBackend.rowToMetadata, h]
      · intro e h
        simp [PostgresIndexBackend.applyUpdate, PostgresIndexBackend.rowToMetadata, h]
      · intro h
        simp [PostgresIndexBackend.applyUpdate, PostgresIndexBackend.rowToMetadata, h]
      · intro h
        simp [PostgresIndexBackend.applyUpdate, PostgresIndexBackend.rowToMetadata, h]
      · intro w h
        simp [PostgresIndexBackend.applyUpdate, PostgresIndexBackend.rowToMetadata, h]
      · intro h
        exact h

/-- C6: on every index backend (SQLite, DynamoDB, Postgres),
`update` of an existing id with at least one present
field returns a record in which only the present fields and `updatedAt`
changed: `id`, `authorDid`, `authorName`, `storageKey`, `createdAt`,
`publishedAt` and every absent field keep their previous values,
`updatedAt` becomes the call time, and is strictly greater than the
previous `updatedAt` whenever the clock has advanced past it. -/
theorem claim_C6 :
    (∀ (rows : List StoryRow) (id : String) (input : UpdateStoryInput)
      (now : String) (before : StoryMetadata),
      SQLiteIndexBackend.get rows id = some before →
      SQLiteIndexBackend.hasUpdates input = true →
      ∃ after, (SQLiteIndexBackend.update rows id input now).1 = some after ∧
        updateFrame before after input now) ∧
    (∀ (table : List StoryItem) (id : String) (input : UpdateStoryInput)
      (now : String) (before : StoryMetadata),
      DynamoDBIndexBackend.get table id = some before →
      SQLiteIndexBackend.hasUpdates input = true →
      ∃ after, (DynamoDBIndexBackend.update table id input now).1 = some after ∧
        updateFrame before after input now) ∧
    (∀ (rows : List PgRow) (id : String) (input : UpdateStoryInput)
      (now : String) (before : StoryMetadata),
      PostgresIndexBackend.get rows id = some before →
      PostgresIndexBackend.hasUpdates input = true →
      ∃ after, (PostgresIndexBackend.update rows id input now).1 = some after ∧
        updateFrame before after input now) :=
  ⟨sqlite_update_found, dynamo_update_found, pg_update_found⟩

/-- C6 witness: the title-only update applied to the stored 2024-01-13
record on all three backends at a later clock time. -/
theorem claim_C6_witness :
    (SQLiteIndexBackend.get sqlRows3 "id13" = some fxBefore13 ∧
      SQLiteIndexBackend.hasUpdates fxTitleUpdate = true ∧
      strLtB fxBefore13.updatedAt "2024-05-01T00:00:00.000Z" = true) ∧
    (∃ after, (SQLiteIndexBackend.update sqlRows3 "id13" fxTitleUpdate
        "2024-05-01T00:00:00.000Z").1 = some after ∧
      updateFrame fxBefore13 after fxTitleUpdate "2024-05-01T00:00:00.000Z") ∧
    (∃ after, (DynamoDBIndexBackend.update ddbItems3 "id13" fxTitleUpdate
        "2024-05-01T00:00:00.000Z").1 = some after ∧
      updateFrame fxBefore13 after fxTitleUpdate "2024-05-01T00:00:00.000Z") ∧
    (∃ after, (PostgresIndexBackend.update pgRows3 "id13" fxTitleUpdate
        "2024-05-01T00:00:00.000Z").1 = some after ∧
      updateFrame fxBefore13 after fxTitleUpdate "2024-05-01T00:00:00.000Z") :=
  ⟨⟨by decide, by decide, by decide⟩,
   claim_C6.1 sqlRows3 "id13" fxTitleUpdate "2024-05-01T00:00:00.000Z"
     fxBefore13 (by decide) (by decide),
   claim_C6.2.1 ddbItems3 "id13" fxTitleUpdate "2024-05-01T00:00:00.000Z"
     fxBefore13 (by decide) (by decide),
   claim_C6.2.2 pgRows3 "id13" fxTitleUpdate "2024-05-01T00:00:00.000Z"
     fxBefore13 (by decide) (by decide)⟩

/-- C7: for both content stores (local filesystem and S3), `put(k, c)`
followed by `get(k)` returns exactly `c` and `exists(k)` is true; after
a `delete(k)` the key reads as absent; and `delete` of a key that does
not exist returns false with the store unchanged rather than throwing. -/
theorem claim_C7 :
    (∀ (fs : List FsEntry) (baseDir key content : String) (t : Nat),
      LocalStorageBackend.get (LocalStorageBackend.put fs baseDir key content t)
        baseDir key = some content ∧
      LocalStorageBackend.existsKey
        (LocalStorageBackend.put fs baseDir key content t) baseDir key = true ∧
      LocalStorageBackend.get (LocalStorageBackend.del fs baseDir key).2
        baseDir key = none ∧
      (LocalStorageBackend.existsKey fs baseDir key = false →
        LocalStorageBackend.del fs baseDir key = (false, fs))) ∧
    (∀ (bucket : List S3Object) (cfgPfx key content : String),
      S3StorageBackend.get (S3StorageBackend.put bucket cfgPfx key content)
        cfgPfx key = some content ∧
      S3StorageBackend.existsKey (S3StorageBackend.put bucket cfgPfx key content)
        cfgPfx key = true ∧
      S3StorageBackend.get (S3StorageBackend.del bucket cfgPfx key).2
        cfgPfx key = none ∧
      (S3StorageBackend.existsKey bucket cfgPfx key = false →
        S3StorageBackend.del bucket cfgPfx key = (false, bucket))) :=
  ⟨fun fs baseDir key content t =>
    ⟨local_get_put fs baseDir key content t,
     local_exists_put fs baseDir key content t,
     local_get_del fs baseDir key,
     local_del_missing fs baseDir key⟩,
   fun bucket cfgPfx key content =>
    ⟨s3_get_put bucket cfgPfx key content,
     s3_exists_put bucket cfgPfx key content,
     s3_get_del bucket cfgPfx key,
     s3_del_missing bucket cfgPfx key⟩⟩

/-- C7 witness: the round trip on an empty local store and an empty
bucket, including the `delete`-of-missing-key branch. -/
theorem claim_C7_witness :
    (LocalStorageBackend.existsKey [] "/data/stories" "a/poem.md" = false ∧
      LocalStorageBackend.del [] "/data/stories" "a/poem.md" = (false, []) ∧
      LocalStorageBackend.get
        (LocalStorageBackend.put [] "/data/stories" "a/poem.md" "hello world" 7)
        "/data/stories" "a/poem.md" = some "hello world") ∧
    (S3StorageBackend.existsKey [] "stories" "a/poem.md" = false ∧
      S3StorageBackend.del [] "stories" "a/poem.md" = (false, []) ∧
      S3StorageBackend.get
        (S3StorageBackend.put [] "stories" "a/poem.md" "hello world")
        "stories" "a/poem.md" = some "hello world") :=
  ⟨⟨by decide,
    (claim_C7.1 [] "/data/stories" "a/poem.md" "hello world" 7).2.2.2 (by decide),
    (claim_C7.1 [] "/data/stories" "a/poem.md" "hello world" 7).1⟩,
   ⟨by decide,
    (claim_C7.2 [] "stories" "a/poem.md" "hello world").2.2.2 (by decide),
    (claim_C7.2 [] "stories" "a/poem.md" "hello world").1⟩⟩

/-- C8: on every index backend (SQLite, DynamoDB, Postgres),
`update(id, {})` with no updatable field present returns
the existing record and leaves the table entirely unchanged — no SQL
`UPDATE` / `UpdateCommand` is issued, so `updatedAt` is not refreshed. -/
theorem claim_C8 :
    (∀ (rows : List StoryRow) (id : String) (before : StoryMetadata)
      (now : String), SQLiteIndexBackend.get rows id = some before →
      SQLiteIndexBackend.update rows id emptyUpdate now = (some before, rows)) ∧
    (∀ (table : List StoryItem) (id : String) (before : StoryMetadata)
      (now : String), DynamoDBIndexBackend.get table id = some before →
      DynamoDBIndexBackend.update table id emptyUpdate now = (some before, table)) ∧
    (∀ (rows : List PgRow) (id : String) (before : StoryMetadata)
      (now : String), PostgresIndexBackend.get rows id = some before →
      PostgresIndexBackend.update rows id emptyUpdate now = (some before, rows)) := by
  refine ⟨?_, ?_, ?_⟩
  · intro rows id before now hget
    simp only [SQLiteIndexBackend.update, hget]
    rfl
  · intro table id before now hget
    simp only [DynamoDBIndexBackend.update, hget]
    rfl
  · intro rows id before now hget
    unfold PostgresIndexBackend.update
    rw [if_neg (by decide)]
    rw [hget]

/-- C8 witness: the empty update applied to the stored 2024-01-13
record on all three backends. -/
theorem claim_C8_witness :
    (SQLiteIndexBackend.get sqlRows3 "id13" = some fxBefore13 ∧
      SQLiteIndexBackend.update sqlRows3 "id13" emptyUpdate
        "2024-05-01T00:00:00.000Z" = (some fxBefore13, sqlRows3)) ∧
    (DynamoDBIndexBackend.update ddbItems3 "id13" emptyUpdate
      "2024-05-01T00:00:00.000Z" = (some fxBefore13, ddbItems3)) ∧
    (PostgresIndexBackend.update pgRows3 "id13" emptyUpdate
      "2024-05-01T00:00:00.000Z" = (some fxBefore13, pgRows3)) :=
  ⟨⟨by decide,
    claim_C8.1 sqlRows3 "id13" fxBefore13 "2024-05-01T00:00:00.000Z" (by decide)⟩,
   claim_C8.2.1 ddbItems3 "id13" fxBefore13 "2024-05-01T00:00:00.000Z" (by decide),
   claim_C8.2.2 pgRows3 "id13" fxBefore13 "2024-05-01T00:00:00.000Z" (by decide)⟩

/-- C9: the local backend resolves keys with `join(baseDir, key)` and
no containment check, so the traversal key `"../outside"` resolves to
`"/data/outside"`, which is not inside the base directory
`"/data/stories"`; `put`/`get`/`exists`/`delete` for that key all
operate on that outside path. -/
theorem claim_C9 :
    pathJoin "/data/stories" "../outside" = "/data/outside" ∧
    isUnder "/data/stories"
      (LocalStorageBackend.getFullPath "/data/stories" "../outside") = false ∧
    LocalStorageBackend.getFullPath "/data/stories" "../outside" ≠
      "/data/stories" ∧
    LocalStorageBackend.put [] "/data/stories" "../outside" "content" 0 =
      [{ path := "/data/outside", content := "content", mtime := 0 }] ∧
    LocalStorageBackend.get
      (LocalStorageBackend.put [] "/data/stories" "../outside" "content" 0)
      "/data/stories" "../outside" = some "content" ∧
    LocalStorageBackend.existsKey
      (LocalStorageBackend.put [] "/data/stories" "../outside" "content" 0)
      "/data/stories" "../outside" = true ∧
    (LocalStorageBackend.del
      (LocalStorageBackend.put [] "/data/stories" "../outside" "content" 0)
      "/data/stories" "../outside").2 = [] := by
  decide

/-- C10: the local backend's `list` only surfaces regular files whose
name ends in `".md"`; for any key without that suffix (and a base
directory none of whose segments ends in `".md"`), the stored blob
satisfies `exists = true` yet no file of any `list` result — for any
prefix or pagination options — carries that key. -/
theorem claim_C10 :
    ∀ (fs : List FsEntry) (baseDir key content : String) (t : Nat)
      (opts : ListOptions),
      strEndsWith key ".md" = false →
      (∀ s ∈ normStack true [] (splitSegs baseDir), strEndsWith s ".md" = false) →
      LocalStorageBackend.existsKey
        (LocalStorageBackend.put fs baseDir key content t) baseDir key = true ∧
      ∀ f ∈ (LocalStorageBackend.list
          (LocalStorageBackend.put fs baseDir key content t) baseDir opts).files,
        f.key ≠ key := by
  intro fs baseDir key content t opts hkey hbase
  refine ⟨local_exists_put fs baseDir key content t, ?_⟩
  intro f hf heq
  have hmd := list_keys_end_md _ baseDir opts hbase f hf
  rw [heq] at hmd
  rw [hmd] at hkey
  exact absurd hkey (by decide)

/-- C10 witness: a text file stored under `"drafts/notes.txt"` in
`"/data/stories"` exists but is absent from the default listing. -/
theorem claim_C10_witness :
    (strEndsWith "drafts/notes.txt" ".md" = false ∧
      (∀ s ∈ normStack true [] (splitSegs "/data/stories"),
        strEndsWith s ".md" = false)) ∧
    (LocalStorageBackend.existsKey
        (LocalStorageBackend.put [] "/data/stories" "drafts/notes.txt" "n" 3)
        "/data/stories" "drafts/notes.txt" = true ∧
      ∀ f ∈ (LocalStorageBackend.list
          (LocalStorageBackend.put [] "/data/stories" "drafts/notes.txt" "n" 3)
          "/data/stories" noListOptions).files,
        f.key ≠ "drafts/notes.txt") :=
  ⟨⟨by decide, by decide⟩,
   claim_C10 [] "/data/stories" "drafts/notes.txt" "n" 3 noListOptions
     (by decide) (by decide)⟩

end ThousandWords
